import Mathlib

/-!
# Shadow node definitions of the compositor

A shallow embedding of `OgreMain/src/Compositor/OgreCompositorShadowNodeDef.cpp`
and the properties of its registry (`addShadowTextureDefinition`), its input
guard (`addTextureSourceName`, `addBufferInput`) and its finalisation
(`_validateAndFinish`).

Conventions of the embedding
* `size_t`, `uint32`, `uint8` values are natural numbers; the one arithmetic
  operation that can wrap (`mNumLights += newLight`) is reduced modulo `2^64`.
* `std::vector` is `List`; iterators become structural recursion.
* `OGRE_EXCEPT` makes a call end with `some code` / `Except.error code`; the
  state a call leaves behind is returned as well, so that what was written
  before the exception was raised stays visible.
* `LogManager::getSingleton().logMessage` appends to a list of messages.
* `mLightTypesMask[lightIdx] |= ...` at a position the vector does not have is
  recorded in a flag (`outOfRange`) and leaves the vector as it is; the run goes on.
-/

namespace Ogre

/-! ## Declarations that live in headers outside this translation unit -/

/-- Exception codes of `Ogre::Exception` raised by this translation unit. -/
inductive ExceptionCodes where
  | ERR_INVALIDPARAMS
  | ERR_DUPLICATE_ITEM
  deriving DecidableEq, Repr

/-- Modelled from the spec: `Ogre::String` is a sequence of characters. -/
abbrev OgreString := List Char

/-- Modelled from the spec: `IdString` (OgreIdString.h) identifies a string by its
hash; a default-constructed `IdString()` carries hash zero. -/
structure IdString where
  mHash : Nat
  deriving DecidableEq, Repr

/-- Modelled from the spec: `Vector2` holds two `Real` components. The code only
copies them, so a component is carried as the value's bit pattern. -/
structure Vector2 where
  x : Nat
  y : Nat
  deriving DecidableEq, Repr

/-- Modelled from the spec: the technique enumeration "ordinary / cascaded (PSSM)
/ other" declared in OgreCompositorShadowNodeDef.h. The code only ever compares
techniques with one another and with `SHADOWMAP_PSSM`. -/
inductive ShadowMapTechniques where
  | SHADOWMAP_UNIFORM
  | SHADOWMAP_FOCUSED
  | SHADOWMAP_PSSM
  deriving DecidableEq, Repr

/-- Modelled from the spec: the `TextureSource` enumeration of
OgreTextureDefinition.h (input channel, locally defined, global). -/
inductive TextureSource where
  | TEXTURE_INPUT
  | TEXTURE_LOCAL
  | TEXTURE_GLOBAL
  deriving DecidableEq, Repr

/-- Modelled from the spec: the shadow-node-recalculation policy of a scene pass. -/
inductive ShadowNodeRecalculation where
  | SHADOW_NODE_RECALCULATE
  | SHADOW_NODE_REUSE
  | SHADOW_NODE_FIRST_ONLY
  | SHADOW_NODE_CASTER_PASS
  deriving DecidableEq, Repr

/-- Constants and helpers that the translation unit takes from headers which are
not part of it. They are parameters of the embedding. -/
structure Headers where
  /-- `Light::LT_DIRECTIONAL`, the position of the directional-light bit. -/
  LT_DIRECTIONAL : Nat
  /-- `VisibilityFlags::LAYER_SHADOW_CASTER`. -/
  LAYER_SHADOW_CASTER : Nat
  /-- The hash behind `IdString( const String& )`. -/
  hashString : OgreString → Nat
  /-- `static_cast<float>` applied to a `Real`. -/
  castFloat : Nat → Nat
  /-- Value the `ShadowTextureDefinition` constructor gives to `numSplits`. -/
  initNumSplits : Nat
  /-- Value the `ShadowTextureDefinition` constructor gives to the shared-setup
  index (the "shares with nobody" marker). -/
  initSharesSetupWith : Nat

/-- Modelled from the spec: one shadow-map texture slot (`ShadowTextureDefinition`,
declared in OgreCompositorShadowNodeDef.h). -/
structure ShadowTextureDefinition where
  uvOffset : Vector2
  uvLength : Vector2
  arrayIdx : Nat
  mrtIndex : Nat
  light : Nat
  split : Nat
  shadowMapTechnique : ShadowMapTechniques
  numSplits : Nat
  texName : IdString
  texNameStr : OgreString
  sharesSetupWith : Nat
  deriving DecidableEq, Repr

/-- Modelled from the spec: the constructor
`ShadowTextureDefinition( technique, name, mrtIndex, uvOffset, uvLength, arrayIdx,
light, split )` stores its arguments and starts the remaining members at the
header's initial values. -/
def ShadowTextureDefinition.construct (H : Headers) (t : ShadowMapTechniques)
    (name : OgreString) (mrtIndex : Nat) (uvOffset uvLength : Vector2) (arrayIdx : Nat)
    (light split : Nat) : ShadowTextureDefinition :=
  { uvOffset := uvOffset
    uvLength := uvLength
    arrayIdx := arrayIdx
    mrtIndex := mrtIndex
    light := light
    split := split
    shadowMapTechnique := t
    numSplits := H.initNumSplits
    texName := ⟨H.hashString name⟩
    texNameStr := name
    sharesSetupWith := H.initSharesSetupWith }

/-- Modelled from the spec: members of `CompositorPassSceneDef` that finalisation
reads or writes. -/
structure CompositorPassSceneDef where
  mFirstRQ : Nat
  mLastRQ : Nat
  mLodCameraName : IdString
  mUpdateLodLists : Bool
  mVisibilityMask : Nat
  mShadowNode : IdString
  mShadowNodeRecalculation : ShadowNodeRecalculation
  deriving DecidableEq, Repr

/-- Modelled from the spec: members of `CompositorPassDef` that this translation
unit reads or writes. `scene` is the `CompositorPassSceneDef` part of the object;
it is present exactly when `getType() == PASS_SCENE`. -/
structure CompositorPassDef where
  mIncludeOverlays : Bool
  mShadowMapIdx : Nat
  mShadowMapFullViewport : Bool
  mVpLeft : Nat
  mVpTop : Nat
  mVpWidth : Nat
  mVpHeight : Nat
  mVpScissorLeft : Nat
  mVpScissorTop : Nat
  mVpScissorWidth : Nat
  mVpScissorHeight : Nat
  mExecutionMask : Nat
  mViewportModifierMask : Nat
  scene : Option CompositorPassSceneDef
  deriving DecidableEq, Repr

/-- Modelled from the spec: a target with its ordered passes
(`CompositorTargetDef`). -/
structure CompositorTargetDef where
  mRenderTargetName : IdString
  mShadowMapSupportedLightTypes : Nat
  mCompositorPasses : List CompositorPassDef
  deriving DecidableEq, Repr

/-- Members of `CompositorShadowNodeDef` (and of its base `CompositorNodeDef`)
used by this translation unit. -/
structure CompositorShadowNodeDef where
  mNameStr : OgreString
  mTargetPasses : List CompositorTargetDef
  mShadowMapTexDefinitions : List ShadowTextureDefinition
  mDefaultTechnique : ShadowMapTechniques
  mNumLights : Nat
  mLightTypesMask : List Nat
  mMinRq : Nat
  mMaxRq : Nat
  deriving DecidableEq, Repr

/-- What a call on the node leaves behind: the node afterwards and either the
returned value or the code of the exception that ended the call. -/
structure Outcome (α : Type) where
  node : CompositorShadowNodeDef
  result : Except ExceptionCodes α

/-! ## String search -/

/-- `std::string::npos`. -/
def npos : Nat := 2 ^ 64 - 1

/-- Search of `std::string::find`: the first position at or after `pos` at which
`pat` occurs in the remaining characters `s`, `npos` when there is none. -/
def findFrom (pat : OgreString) : OgreString → Nat → Nat
  | [], pos => if pat = [] then pos else npos
  | c :: cs, pos => if pat.isPrefixOf (c :: cs) then pos else findFrom pat cs (pos + 1)

/-- Position of the first occurrence: `name.find( pat )`. -/
def find (name pat : OgreString) : Nat := findFrom pat name 0

/-! ## Texture-source guard -/

/-- Embedding of `CompositorShadowNodeDef::addTextureSourceName`. The base-class
method `CompositorNodeDef::addTextureSourceName` is outside the translation unit
and is the parameter `base`. -/
def addTextureSourceName
    (base : CompositorShadowNodeDef → OgreString → Nat → TextureSource → Outcome IdString)
    (s : CompositorShadowNodeDef) (name : OgreString) (index : Nat)
    (textureSource : TextureSource) : Outcome IdString :=
  if textureSource = TextureSource.TEXTURE_INPUT then
    { node := s, result := Except.error ExceptionCodes.ERR_INVALIDPARAMS }
  else
    base s name (s.mShadowMapTexDefinitions.length + index) textureSource

/-- Embedding of `CompositorShadowNodeDef::addBufferInput`. -/
def addBufferInput (s : CompositorShadowNodeDef) (_inputChannel : Nat) (_name : IdString) :
    Outcome Unit :=
  { node := s, result := Except.error ExceptionCodes.ERR_INVALIDPARAMS }

/-! ## Shadow-texture definition registry -/

/-- The `while( itor != end )` loop of `addShadowTextureDefinition`, started with
`newLight`: it ends with the final `newLight`, or with `ERR_DUPLICATE_ITEM` at the
first definition with the same light and split. The loop writes nothing to the
node. -/
def scanDefinitions (lightIdx split : Nat) : List ShadowTextureDefinition → Nat →
    Except ExceptionCodes Nat
  | [], newLight => Except.ok newLight
  | d :: ds, newLight =>
    let newLight1 := if d.light = lightIdx then 0 else newLight
    if d.light = lightIdx ∧ d.split = split then
      Except.error ExceptionCodes.ERR_DUPLICATE_ITEM
    else
      scanDefinitions lightIdx split ds newLight1

/-- Embedding of `CompositorShadowNodeDef::addShadowTextureDefinition`. The returned
pointer `&mShadowMapTexDefinitions.back()` is the position of the new entry. -/
def addShadowTextureDefinition (H : Headers) (s : CompositorShadowNodeDef)
    (lightIdx split : Nat) (name : OgreString) (mrtIndex : Nat)
    (uvOffset uvLength : Vector2) (arrayIdx : Nat) : Outcome Nat :=
  if name.isEmpty then
    { node := s, result := Except.error ExceptionCodes.ERR_INVALIDPARAMS }
  else if find name "global_".toList = 0 then
    { node := s, result := Except.error ExceptionCodes.ERR_INVALIDPARAMS }
  else
    match scanDefinitions lightIdx split s.mShadowMapTexDefinitions 1 with
    | Except.error code => { node := s, result := Except.error code }
    | Except.ok newLight =>
      { node :=
          { s with
            mNumLights := (s.mNumLights + newLight) % 2 ^ 64
            mShadowMapTexDefinitions :=
              s.mShadowMapTexDefinitions ++
                [ShadowTextureDefinition.construct H s.mDefaultTechnique name mrtIndex
                  uvOffset uvLength arrayIdx lightIdx split] }
        result := Except.ok s.mShadowMapTexDefinitions.length }

/-- Registry states obtained from an empty registry (no definition, light counter
zero) by calls of `addShadowTextureDefinition`, whether they succeed or raise. -/
inductive Reachable (H : Headers) : CompositorShadowNodeDef → Prop where
  | empty (s : CompositorShadowNodeDef) (hdefs : s.mShadowMapTexDefinitions = [])
      (hnum : s.mNumLights = 0) : Reachable H s
  | add (s : CompositorShadowNodeDef) (lightIdx split : Nat) (name : OgreString)
      (mrtIndex : Nat) (uvOffset uvLength : Vector2) (arrayIdx : Nat)
      (hs : Reachable H s) :
      Reachable H
        (addShadowTextureDefinition H s lightIdx split name mrtIndex uvOffset uvLength
          arrayIdx).node

/-- Embedding of `CompositorShadowNodeDef::postInitializePassDef`. -/
def postInitializePassDef (passDef : CompositorPassDef) : CompositorPassDef :=
  { passDef with mExecutionMask := 0xFF, mViewportModifierMask := 0x00 }

/-! ## Validation and finalisation -/

/-- The four warnings `_validateAndFinish` hands to `LogManager::logMessage`. -/
inductive LogMessage where
  /-- "All Passes in a Shadow Node can't include overlays. Turning them off." -/
  | overlaysTurnedOff
  /-- "Limiting the number of PSSM splits per light to 5." -/
  | splitLimit
  /-- "Two shadow maps refer to the same light & split." -/
  | sameLightAndSplit
  /-- "All pssm shadow maps with the same light but different split must have the
  same number of splits. Attempting to fix." -/
  | numSplitsMismatch
  deriving DecidableEq, Repr

/-- Node-level data written while the targets are walked: the light-type masks, the
render-queue extent, the messages logged so far, and `outOfRange`, which records
that `mLightTypesMask[lightIdx]` was written at a position the vector does not
have. -/
structure Accum where
  mLightTypesMask : List Nat
  mMinRq : Nat
  mMaxRq : Nat
  log : List LogMessage
  outOfRange : Bool
  deriving DecidableEq, Repr

/-- State after one pass of a target was handled. -/
structure PassStep where
  pass : CompositorPassDef
  mask : Nat
  acc : Accum
  thrown : Option ExceptionCodes

/-- State after the passes of one target were walked. -/
structure PassesStep where
  passes : List CompositorPassDef
  mask : Nat
  acc : Accum
  thrown : Option ExceptionCodes

/-- State after the targets were walked. -/
structure TargetsStep where
  targets : List CompositorTargetDef
  acc : Accum
  thrown : Option ExceptionCodes

/-- State after the definitions were walked. -/
structure DefsStep where
  defs : List ShadowTextureDefinition
  log : List LogMessage
  thrown : Option ExceptionCodes

/-- What `_validateAndFinish` leaves behind: the node, the messages it logged in
order, whether it wrote outside `mLightTypesMask`, and the exception that ended it
(`none` when it returned). -/
structure Finished where
  node : CompositorShadowNodeDef
  log : List LogMessage
  outOfRange : Bool
  thrown : Option ExceptionCodes

/-- `std::vector::resize( n, value )`: keeps the first `n` entries and pads with
`value` up to length `n`. -/
def resize (v : List Nat) (n value : Nat) : List Nat :=
  v.take n ++ List.replicate (n - v.length) value

/-- The statement `mLightTypesMask[lightIdx] |= mask`. The vector has no entry at a
position at or beyond its size: such a write leaves the vector as it is and is
recorded in `outOfRange`. -/
def accumulateLightTypes (lightIdx mask : Nat) (a : Accum) : Accum :=
  if lightIdx < a.mLightTypesMask.length then
    { a with
      mLightTypesMask :=
        a.mLightTypesMask.set lightIdx (a.mLightTypesMask.getD lightIdx 0 ||| mask) }
  else
    { a with outOfRange := true }

/-- Lines 157-165: the viewport and the scissor rectangle of the pass are taken
from the atlas rectangle of the definition. -/
def forceViewport (H : Headers) (texDef : ShadowTextureDefinition)
    (pass : CompositorPassDef) : CompositorPassDef :=
  { pass with
    mVpLeft := H.castFloat texDef.uvOffset.x
    mVpTop := H.castFloat texDef.uvOffset.y
    mVpWidth := H.castFloat texDef.uvLength.x
    mVpHeight := H.castFloat texDef.uvLength.y
    mVpScissorLeft := H.castFloat texDef.uvOffset.x
    mVpScissorTop := H.castFloat texDef.uvOffset.y
    mVpScissorWidth := H.castFloat texDef.uvLength.x
    mVpScissorHeight := H.castFloat texDef.uvLength.y }

/-- Lines 148-186: the block guarded by
`pass->mShadowMapIdx < mShadowMapTexDefinitions.size()`. `mask` is the
supported-light-types mask of the owning target when the pass is reached. -/
def shadowMapStep (H : Headers) (defs : List ShadowTextureDefinition)
    (renderTargetName : IdString) (pass : CompositorPassDef) (mask : Nat) (a : Accum) :
    PassStep :=
  match defs[pass.mShadowMapIdx]? with
  | none => { pass := pass, mask := mask, acc := a, thrown := none }
  | some texDef =>
    let pass1 :=
      if renderTargetName = texDef.texName ∧ pass.mShadowMapFullViewport = false then
        forceViewport H texDef pass
      else pass
    if texDef.shadowMapTechnique = ShadowMapTechniques.SHADOWMAP_PSSM then
      { pass := pass1
        mask := 1 <<< H.LT_DIRECTIONAL
        acc := accumulateLightTypes texDef.light (1 <<< H.LT_DIRECTIONAL) a
        thrown := none }
    else if mask = 0 then
      { pass := pass1, mask := mask, acc := a,
        thrown := some ExceptionCodes.ERR_INVALIDPARAMS }
    else
      { pass := pass1
        mask := mask
        acc := accumulateLightTypes texDef.light mask a
        thrown := none }

/-- Lines 188-205: the block guarded by `pass->getType() == PASS_SCENE`. -/
def sceneStep (H : Headers) (pass : CompositorPassDef) (a : Accum) :
    CompositorPassDef × Accum :=
  match pass.scene with
  | none => (pass, a)
  | some passScene =>
    ({ pass with
       scene := some
        { passScene with
          mUpdateLodLists :=
            if passScene.mLodCameraName = (⟨0⟩ : IdString) then false
            else passScene.mUpdateLodLists
          mVisibilityMask := passScene.mVisibilityMask ||| H.LAYER_SHADOW_CASTER
          mShadowNode := ⟨0⟩
          mShadowNodeRecalculation := ShadowNodeRecalculation.SHADOW_NODE_CASTER_PASS } },
     { a with
       mMinRq := min a.mMinRq passScene.mFirstRQ
       mMaxRq := max a.mMaxRq passScene.mLastRQ })

/-- Lines 136-205: the body of the loop over the passes of a target. -/
def passBody (H : Headers) (defs : List ShadowTextureDefinition)
    (renderTargetName : IdString) (pass : CompositorPassDef) (mask : Nat) (a : Accum) :
    PassStep :=
  let a1 : Accum :=
    if pass.mIncludeOverlays = true then
      { a with log := a.log ++ [LogMessage.overlaysTurnedOff] }
    else a
  let pass1 : CompositorPassDef := { pass with mIncludeOverlays := false }
  let r := shadowMapStep H defs renderTargetName pass1 mask a1
  match r.thrown with
  | some code => { pass := r.pass, mask := r.mask, acc := r.acc, thrown := some code }
  | none =>
    let q := sceneStep H r.pass r.acc
    { pass := q.1, mask := r.mask, acc := q.2, thrown := none }

/-- Lines 134-208: the loop `while( it != en )` over the passes of a target. When a
pass raises, the passes after it are left as they are. -/
def passLoop (H : Headers) (defs : List ShadowTextureDefinition)
    (renderTargetName : IdString) : List CompositorPassDef → Nat → Accum → PassesStep
  | [], mask, a => { passes := [], mask := mask, acc := a, thrown := none }
  | pass :: rest, mask, a =>
    let r := passBody H defs renderTargetName pass mask a
    match r.thrown with
    | some code =>
      { passes := r.pass :: rest, mask := r.mask, acc := r.acc, thrown := some code }
    | none =>
      let t := passLoop H defs renderTargetName rest r.mask r.acc
      { passes := r.pass :: t.passes, mask := t.mask, acc := t.acc, thrown := t.thrown }

/-- Lines 128-211: the loop `while( itor != end )` over the targets. When a target
raises, the targets after it are left as they are. -/
def targetLoop (H : Headers) (defs : List ShadowTextureDefinition) :
    List CompositorTargetDef → Accum → TargetsStep
  | [], a => { targets := [], acc := a, thrown := none }
  | target :: rest, a =>
    let r := passLoop H defs target.mRenderTargetName target.mCompositorPasses
      target.mShadowMapSupportedLightTypes a
    let target1 : CompositorTargetDef :=
      { target with
        mShadowMapSupportedLightTypes := r.mask
        mCompositorPasses := r.passes }
    match r.thrown with
    | some code => { targets := target1 :: rest, acc := r.acc, thrown := some code }
    | none =>
      let t := targetLoop H defs rest r.acc
      { targets := target1 :: t.targets, acc := t.acc, thrown := t.thrown }

/-- Lines 226-240: the limit on `numSplits` (build without
`OGRE_REMOVE_PSSM_SPLIT_LIMIT`). -/
def limitSplits (d : ShadowTextureDefinition) (log : List LogMessage) :
    ShadowTextureDefinition × List LogMessage :=
  if d.numSplits > 5 then ({ d with numSplits := 5 }, log ++ [LogMessage.splitLimit])
  else (d, log)

/-- Lines 247-279: the loop `while( it2 != en2 && !bShared )`. `before` holds the
definitions from `it2` up to `it1`, `idx` is `it2 - begin()`, `d` is `*it1`. The
loop ends at the first iteration that sets `bShared`. -/
def shareScan : List ShadowTextureDefinition → Nat → ShadowTextureDefinition →
    List LogMessage → ShadowTextureDefinition × List LogMessage
  | [], _, d, log => (d, log)
  | b :: bs, idx, d, log =>
    if b.light = d.light then
      if b.split = d.split then
        shareScan bs (idx + 1) d (log ++ [LogMessage.sameLightAndSplit])
      else if b.split ≠ d.split then
        if b.numSplits ≠ d.numSplits then
          ({ d with numSplits := b.numSplits, sharesSetupWith := idx },
            log ++ [LogMessage.numSplitsMismatch])
        else
          ({ d with sharesSetupWith := idx }, log)
      else
        shareScan bs (idx + 1) d log
    else if b.shadowMapTechnique = d.shadowMapTechnique then
      ({ d with sharesSetupWith := idx }, log)
    else
      shareScan bs (idx + 1) d log

/-- Lines 217-282: the loop `while( it1 != en1 )` over the definitions. `done` holds
the definitions before `it1`, as already rewritten; the second list starts at `it1`.
When a definition raises, it and the ones after it are left as they are. -/
def defLoop : List ShadowTextureDefinition → List ShadowTextureDefinition →
    List LogMessage → DefsStep
  | done, [], log => { defs := done, log := log, thrown := none }
  | done, d :: rest, log =>
    if d.split ≠ 0 ∧ d.shadowMapTechnique ≠ ShadowMapTechniques.SHADOWMAP_PSSM then
      { defs := done ++ d :: rest, log := log,
        thrown := some ExceptionCodes.ERR_INVALIDPARAMS }
    else
      let l := limitSplits d log
      let r := shareScan done 0 l.1 l.2
      defLoop (done ++ [r.1]) rest r.2

/-- Line 123 and the node-level data as the loop over the targets finds them:
`mLightTypesMask.resize( mNumLights, 0u )`, the render-queue extent of the node,
nothing logged yet and no write outside the vector. -/
def initialAccum (s : CompositorShadowNodeDef) : Accum :=
  { mLightTypesMask := resize s.mLightTypesMask s.mNumLights 0
    mMinRq := s.mMinRq
    mMaxRq := s.mMaxRq
    log := []
    outOfRange := false }

/-- Embedding of `CompositorShadowNodeDef::_validateAndFinish`. -/
def _validateAndFinish (H : Headers) (s : CompositorShadowNodeDef) : Finished :=
  let ta := targetLoop H s.mShadowMapTexDefinitions s.mTargetPasses (initialAccum s)
  let s1 : CompositorShadowNodeDef :=
    { s with
      mTargetPasses := ta.targets
      mLightTypesMask := ta.acc.mLightTypesMask
      mMinRq := ta.acc.mMinRq
      mMaxRq := ta.acc.mMaxRq }
  match ta.thrown with
  | some code =>
    { node := s1, log := ta.acc.log, outOfRange := ta.acc.outOfRange, thrown := some code }
  | none =>
    let db := defLoop [] s.mShadowMapTexDefinitions ta.acc.log
    { node := { s1 with mShadowMapTexDefinitions := db.defs }
      log := db.log
      outOfRange := ta.acc.outOfRange
      thrown := db.thrown }

/-! ## Quantities and sample nodes used in the statements -/

/-- Number of distinct light indices among the definitions. -/
def distinctLights (defs : List ShadowTextureDefinition) : Nat :=
  (defs.map (fun d => d.light)).dedup.length

/-- Header values for the worked examples: the directional light is bit 0, the
constructor starts a definition with three splits and with the all-ones index as
"shares with nobody". -/
def sampleHeaders : Headers :=
  { LT_DIRECTIONAL := 0
    LAYER_SHADOW_CASTER := 2 ^ 30
    hashString := fun name => name.length
    castFloat := fun v => v
    initNumSplits := 3
    initSharesSetupWith := 2 ^ 64 - 1 }

/-- A node named "shadows" with an empty registry, no target, and the given default
technique. -/
def emptyNode (t : ShadowMapTechniques) : CompositorShadowNodeDef :=
  { mNameStr := "shadows".toList
    mTargetPasses := []
    mShadowMapTexDefinitions := []
    mDefaultTechnique := t
    mNumLights := 0
    mLightTypesMask := []
    mMinRq := 0
    mMaxRq := 0 }

/-- The registry after three successful registrations on the empty PSSM node:
light 0 split 0, light 0 split 1, light 1 split 0. -/
def atlasNode : CompositorShadowNodeDef :=
  (addShadowTextureDefinition sampleHeaders
    (addShadowTextureDefinition sampleHeaders
      (addShadowTextureDefinition sampleHeaders
        (emptyNode ShadowMapTechniques.SHADOWMAP_PSSM)
        0 0 "atlas".toList 0 ⟨0, 0⟩ ⟨1, 1⟩ 0).node
      0 1 "atlas".toList 0 ⟨1, 0⟩ ⟨1, 1⟩ 0).node
    1 0 "atlas".toList 0 ⟨0, 1⟩ ⟨1, 1⟩ 0).node

/-! ## Notions used in the statements about finalisation -/

/-- Definition `b` is one that definition `a` takes its setup from: same light and a
different split, or a different light and the same technique. -/
def SharesSetup (b a : ShadowTextureDefinition) : Prop :=
  (b.light = a.light ∧ b.split ≠ a.split) ∨
    (b.light ≠ a.light ∧ b.shadowMapTechnique = a.shadowMapTechnique)

/-- Same light, split and technique. -/
def SameKey (x y : ShadowTextureDefinition) : Prop :=
  x.light = y.light ∧ x.split = y.split ∧ x.shadowMapTechnique = y.shadowMapTechnique

/-- Bitwise OR of a list of masks. -/
def orAll (masks : List Nat) : Nat := masks.foldr (fun m acc => m ||| acc) 0

/-- The pass has a shadow-map index in bounds that refers to a PSSM definition. -/
def refersToPssm (defs : List ShadowTextureDefinition) (p : CompositorPassDef) : Bool :=
  match defs[p.mShadowMapIdx]? with
  | some d => decide (d.shadowMapTechnique = ShadowMapTechniques.SHADOWMAP_PSSM)
  | none => false

/-- The pass has a shadow-map index in bounds that refers to a definition of light
`L`. -/
def refersToLight (defs : List ShadowTextureDefinition) (L : Nat)
    (p : CompositorPassDef) : Bool :=
  match defs[p.mShadowMapIdx]? with
  | some d => decide (d.light = L)
  | none => false

/-- What the passes of one target give to light `L`: the OR, over the positions `k`
of passes that refer to light `L`, of the mask the target holds at pass `k`, which is
the directional bit when pass `k` or an earlier pass refers to a PSSM definition and
the mask `mask` the target came with otherwise. -/
def passesLightTypes (H : Headers) (defs : List ShadowTextureDefinition) (L mask : Nat)
    (passes : List CompositorPassDef) : Nat :=
  orAll ((List.range passes.length).map fun k =>
    match passes[k]? with
    | some p =>
      if refersToLight defs L p then
        if (passes.take (k + 1)).any (refersToPssm defs) then 1 <<< H.LT_DIRECTIONAL
        else mask
      else 0
    | none => 0)

/-- OR over all targets of what their passes give to light `L`. -/
def expectedLightTypes (H : Headers) (defs : List ShadowTextureDefinition)
    (targets : List CompositorTargetDef) (L : Nat) : Nat :=
  orAll (targets.map fun t =>
    passesLightTypes H defs L t.mShadowMapSupportedLightTypes t.mCompositorPasses)

/-- The target has a pass whose shadow-map index is in bounds and refers to a
definition of light `L`. -/
def hasPassForLight (defs : List ShadowTextureDefinition) (L : Nat)
    (t : CompositorTargetDef) : Bool :=
  t.mCompositorPasses.any (refersToLight defs L)

/-- Bitwise OR of the supported-light-types masks of the targets that have a pass
for light `L`. -/
def claimedLightTypes (defs : List ShadowTextureDefinition)
    (targets : List CompositorTargetDef) (L : Nat) : Nat :=
  orAll ((targets.filter (hasPassForLight defs L)).map
    fun t => t.mShadowMapSupportedLightTypes)

/-- A scene pass with the given shadow-map index, as `postInitializePassDef` leaves
it. -/
def samplePass (shadowMapIdx : Nat) : CompositorPassDef :=
  { mIncludeOverlays := false
    mShadowMapIdx := shadowMapIdx
    mShadowMapFullViewport := false
    mVpLeft := 0
    mVpTop := 0
    mVpWidth := 1
    mVpHeight := 1
    mVpScissorLeft := 0
    mVpScissorTop := 0
    mVpScissorWidth := 1
    mVpScissorHeight := 1
    mExecutionMask := 0xFF
    mViewportModifierMask := 0x00
    scene := some
      { mFirstRQ := 0
        mLastRQ := 255
        mLodCameraName := ⟨0⟩
        mUpdateLodLists := true
        mVisibilityMask := 1
        mShadowNode := ⟨0⟩
        mShadowNodeRecalculation := ShadowNodeRecalculation.SHADOW_NODE_FIRST_ONLY } }

/-- One definition registered on a node whose default technique is focused:
light 0, split 1. -/
def focusedSplitNode : CompositorShadowNodeDef :=
  (addShadowTextureDefinition sampleHeaders
    (emptyNode ShadowMapTechniques.SHADOWMAP_FOCUSED)
    0 1 "atlas".toList 0 ⟨0, 0⟩ ⟨1, 1⟩ 0).node

/-- One focused definition (light 0, split 0) and one target, with a supported
light-types mask of zero, whose only pass renders shadow map 0. -/
def zeroMaskNode : CompositorShadowNodeDef :=
  { (addShadowTextureDefinition sampleHeaders
      (emptyNode ShadowMapTechniques.SHADOWMAP_FOCUSED)
      0 0 "atlas".toList 0 ⟨0, 0⟩ ⟨1, 1⟩ 0).node with
    mTargetPasses :=
      [{ mRenderTargetName := ⟨5⟩
         mShadowMapSupportedLightTypes := 0
         mCompositorPasses := [samplePass 0] }] }

/-- Three PSSM definitions: light 1 split 0, light 1 split 1, light 2 split 0. -/
def threeCascadesNode : CompositorShadowNodeDef :=
  (addShadowTextureDefinition sampleHeaders
    (addShadowTextureDefinition sampleHeaders
      (addShadowTextureDefinition sampleHeaders
        (emptyNode ShadowMapTechniques.SHADOWMAP_PSSM)
        1 0 "atlas".toList 0 ⟨0, 0⟩ ⟨1, 1⟩ 0).node
      1 1 "atlas".toList 0 ⟨1, 0⟩ ⟨1, 1⟩ 0).node
    2 0 "atlas".toList 0 ⟨0, 1⟩ ⟨1, 1⟩ 0).node

/-- Three PSSM definitions, light 0 split 0, light 1 split 0 and light 1 split 1,
where the author gave four splits to the last one and left three on the others. -/
def mismatchNode : CompositorShadowNodeDef :=
  let n :=
    (addShadowTextureDefinition sampleHeaders
      (addShadowTextureDefinition sampleHeaders
        (addShadowTextureDefinition sampleHeaders
          (emptyNode ShadowMapTechniques.SHADOWMAP_PSSM)
          0 0 "atlas".toList 0 ⟨0, 0⟩ ⟨1, 1⟩ 0).node
        1 0 "atlas".toList 0 ⟨1, 0⟩ ⟨1, 1⟩ 0).node
      1 1 "atlas".toList 0 ⟨0, 1⟩ ⟨1, 1⟩ 0).node
  { n with
    mShadowMapTexDefinitions :=
      n.mShadowMapTexDefinitions.map fun d =>
        if d.light = 1 ∧ d.split = 1 then { d with numSplits := 4 } else d }

/-- A focused definition for light 0 and a PSSM definition for light 1, and one
target with mask 6 whose passes render shadow map 0 and then shadow map 1. -/
def mixedTargetNode : CompositorShadowNodeDef :=
  { (addShadowTextureDefinition sampleHeaders
      { (addShadowTextureDefinition sampleHeaders
          (emptyNode ShadowMapTechniques.SHADOWMAP_FOCUSED)
          0 0 "spot".toList 0 ⟨0, 0⟩ ⟨1, 1⟩ 0).node with
        mDefaultTechnique := ShadowMapTechniques.SHADOWMAP_PSSM }
      1 0 "sun".toList 0 ⟨0, 0⟩ ⟨1, 1⟩ 0).node with
    mTargetPasses :=
      [{ mRenderTargetName := ⟨9⟩
         mShadowMapSupportedLightTypes := 6
         mCompositorPasses := [samplePass 0, samplePass 1] }] }

/-! ## Notions and sample nodes for passes, limits and failure -/

/-- What the scene block writes into a scene pass. -/
def finishScene (H : Headers) (sc : CompositorPassSceneDef) : CompositorPassSceneDef :=
  { sc with
    mUpdateLodLists := if sc.mLodCameraName = (⟨0⟩ : IdString) then false
      else sc.mUpdateLodLists
    mVisibilityMask := sc.mVisibilityMask ||| H.LAYER_SHADOW_CASTER
    mShadowNode := ⟨0⟩
    mShadowNodeRecalculation := ShadowNodeRecalculation.SHADOW_NODE_CASTER_PASS }

/-- Scene parts of the passes of all targets, in the order the passes are walked. -/
def scenePasses : List CompositorTargetDef → List CompositorPassSceneDef
  | [] => []
  | t :: ts => t.mCompositorPasses.filterMap (fun p => p.scene) ++ scenePasses ts

/-- Number of passes, over all targets, that have overlays enabled. -/
def overlayPasses : List CompositorTargetDef → Nat
  | [] => 0
  | t :: ts => t.mCompositorPasses.countP (fun p => p.mIncludeOverlays) + overlayPasses ts

/-- Two definitions agree in every member that finalisation never writes: all but
`numSplits` and `sharesSetupWith`. -/
def AgreeOutsideLinks (x y : ShadowTextureDefinition) : Prop :=
  { x with numSplits := y.numSplits, sharesSetupWith := y.sharesSetupWith } = y

/-- Two PSSM definitions of light 0 in the atlas texture "atlas" (splits 0 and 1),
and one target that renders into that atlas, with an author mask of zero and two
scene passes, the first with overlays on. -/
def atlasTargetNode : CompositorShadowNodeDef :=
  { (addShadowTextureDefinition sampleHeaders
      (addShadowTextureDefinition sampleHeaders
        (emptyNode ShadowMapTechniques.SHADOWMAP_PSSM)
        0 0 "atlas".toList 0 ⟨2, 3⟩ ⟨4, 5⟩ 0).node
      0 1 "atlas".toList 0 ⟨6, 3⟩ ⟨4, 5⟩ 0).node with
    mMinRq := 200
    mTargetPasses :=
      [{ mRenderTargetName := ⟨5⟩
         mShadowMapSupportedLightTypes := 0
         mCompositorPasses :=
           [{ samplePass 0 with mIncludeOverlays := true }, samplePass 1] }] }

/-- Two PSSM definitions of light 0, splits 0 and 1, where the author gave three
splits to the first and seven to the second. -/
def overLimitNode : CompositorShadowNodeDef :=
  let n :=
    (addShadowTextureDefinition sampleHeaders
      (addShadowTextureDefinition sampleHeaders
        (emptyNode ShadowMapTechniques.SHADOWMAP_PSSM)
        0 0 "atlas".toList 0 ⟨0, 0⟩ ⟨1, 1⟩ 0).node
      0 1 "atlas".toList 0 ⟨1, 0⟩ ⟨1, 1⟩ 0).node
  { n with
    mShadowMapTexDefinitions :=
      n.mShadowMapTexDefinitions.map fun d =>
        if d.split = 1 then { d with numSplits := 7 } else d }

/-- A node that fails late: PSSM definitions of light 0 with splits 0 (nine splits
asked for) and 1, then a focused definition of light 1 with split 1, and one target
rendering shadow map 0 into the atlas with overlays on. -/
def halfFinishedNode : CompositorShadowNodeDef :=
  let n :=
    (addShadowTextureDefinition sampleHeaders
      { (addShadowTextureDefinition sampleHeaders
          (addShadowTextureDefinition sampleHeaders
            (emptyNode ShadowMapTechniques.SHADOWMAP_PSSM)
            0 0 "atlas".toList 0 ⟨2, 3⟩ ⟨4, 5⟩ 0).node
          0 1 "atlas".toList 0 ⟨6, 3⟩ ⟨4, 5⟩ 0).node with
        mDefaultTechnique := ShadowMapTechniques.SHADOWMAP_FOCUSED }
      1 1 "spot".toList 0 ⟨0, 0⟩ ⟨1, 1⟩ 0).node
  { n with
    mMinRq := 200
    mShadowMapTexDefinitions :=
      n.mShadowMapTexDefinitions.map fun d =>
        if d.light = 0 ∧ d.split = 0 then { d with numSplits := 9 } else d
    mTargetPasses :=
      [{ mRenderTargetName := ⟨5⟩
         mShadowMapSupportedLightTypes := 0
         mCompositorPasses := [{ samplePass 0 with mIncludeOverlays := true }] }] }

/-- The registry after the single registration light 1, split 0 on an empty focused
node. -/
def sparseLightRegistry : CompositorShadowNodeDef :=
  (addShadowTextureDefinition sampleHeaders
    (emptyNode ShadowMapTechniques.SHADOWMAP_FOCUSED)
    1 0 "spot".toList 0 ⟨0, 0⟩ ⟨1, 1⟩ 0).node

/-- The registry `sparseLightRegistry` with one target (mask 1) whose pass renders
shadow map 0. -/
def sparseLightNode : CompositorShadowNodeDef :=
  { sparseLightRegistry with
    mTargetPasses :=
      [{ mRenderTargetName := ⟨9⟩
         mShadowMapSupportedLightTypes := 1
         mCompositorPasses := [samplePass 0] }] }

/-! ## The registry and the input guard -/

/-- `npos` is not position zero. -/
theorem npos_pos : 0 < npos := by unfold npos; norm_num

/-- A search started after position zero never answers zero. -/
theorem findFrom_pos (pat : OgreString) (s : OgreString) (pos : Nat) (h : 0 < pos) :
    0 < findFrom pat s pos := by
  induction s generalizing pos with
  | nil =>
    unfold findFrom
    split
    · exact h
    · exact npos_pos
  | cons c cs ih =>
    unfold findFrom
    split
    · exact h
    · exact ih (pos + 1) (Nat.succ_pos pos)

/-- `name.find( pat ) == 0` says exactly that `pat` is a prefix of `name`. -/
theorem find_eq_zero_iff (name pat : OgreString) :
    find name pat = 0 ↔ pat <+: name := by
  unfold find
  cases name with
  | nil =>
    unfold findFrom
    by_cases hp : pat = []
    · simp [hp]
    · simp [hp, List.prefix_nil]
      exact Nat.ne_of_gt npos_pos
  | cons c cs =>
    unfold findFrom
    by_cases hp : pat.isPrefixOf (c :: cs) = true
    · simp only [hp, if_true, true_iff]
      exact List.isPrefixOf_iff_prefix.mp hp
    · simp only [hp, if_false]
      constructor
      · intro h0
        exact absurd h0 (Nat.ne_of_gt (findFrom_pos pat cs 1 Nat.one_pos))
      · intro hpre
        exact absurd (List.isPrefixOf_iff_prefix.mpr hpre) hp

/-- The scan only raises `ERR_DUPLICATE_ITEM`, and only at a stored definition with the requested light and split. -/
theorem scanDefinitions_error (lightIdx split : Nat) (defs : List ShadowTextureDefinition)
    (newLight : Nat) (code : ExceptionCodes)
    (h : scanDefinitions lightIdx split defs newLight = Except.error code) :
    code = ExceptionCodes.ERR_DUPLICATE_ITEM ∧
      ∃ d ∈ defs, d.light = lightIdx ∧ d.split = split := by
  induction defs generalizing newLight with
  | nil => simp [scanDefinitions] at h
  | cons d ds ih =>
    unfold scanDefinitions at h
    by_cases hd : d.light = lightIdx ∧ d.split = split
    · simp only [hd, and_self, if_true] at h
      injection h with h
      exact ⟨h.symm, d, List.mem_cons_self d ds, hd⟩
    · simp only [hd, if_false] at h
      obtain ⟨hc, e, he, hp⟩ := ih _ h
      exact ⟨hc, e, List.mem_cons_of_mem d he, hp⟩

/-- A scan that ends normally met no definition with the requested light and split, and its `newLight` is zero exactly when the light was met. -/
theorem scanDefinitions_ok (lightIdx split : Nat) (defs : List ShadowTextureDefinition)
    (newLight n : Nat)
    (h : scanDefinitions lightIdx split defs newLight = Except.ok n) :
    (¬ ∃ d ∈ defs, d.light = lightIdx ∧ d.split = split) ∧
      n = if ∃ d ∈ defs, d.light = lightIdx then 0 else newLight := by
  induction defs generalizing newLight with
  | nil =>
    simp only [scanDefinitions] at h
    injection h with h
    simp [h]
  | cons d ds ih =>
    unfold scanDefinitions at h
    by_cases hd : d.light = lightIdx ∧ d.split = split
    · simp [hd] at h
    · simp only [hd, if_false] at h
      obtain ⟨hno, hn⟩ := ih _ h
      refine ⟨?_, ?_⟩
      · rintro ⟨e, he, hp⟩
        rcases List.mem_cons.mp he with rfl | he
        · exact hd hp
        · exact hno ⟨e, he, hp⟩
      · by_cases hl : d.light = lightIdx
        · simp only [hl, if_true] at hn
          have : ∃ e ∈ d :: ds, e.light = lightIdx := ⟨d, List.mem_cons_self d ds, hl⟩
          simp only [this, if_true]
          split at hn <;> exact hn
        · simp only [hl, if_false] at hn
          by_cases hex : ∃ e ∈ ds, e.light = lightIdx
          · have : ∃ e ∈ d :: ds, e.light = lightIdx := by
              obtain ⟨e, he, hp⟩ := hex
              exact ⟨e, List.mem_cons_of_mem d he, hp⟩
            simp only [this, if_true]
            simp only [hex, if_true] at hn
            exact hn
          · have : ¬ ∃ e ∈ d :: ds, e.light = lightIdx := by
              rintro ⟨e, he, hp⟩
              rcases List.mem_cons.mp he with rfl | he
              · exact hl hp
              · exact hex ⟨e, he, hp⟩
            simp only [this, if_false]
            simp only [hex, if_false] at hn
            exact hn

/-- A stored definition with the requested light and split makes the scan raise. -/
theorem scanDefinitions_of_clash (lightIdx split : Nat) (defs : List ShadowTextureDefinition)
    (newLight : Nat) (h : ∃ d ∈ defs, d.light = lightIdx ∧ d.split = split) :
    scanDefinitions lightIdx split defs newLight =
      Except.error ExceptionCodes.ERR_DUPLICATE_ITEM := by
  cases hr : scanDefinitions lightIdx split defs newLight with
  | error code =>
    rw [(scanDefinitions_error lightIdx split defs newLight code hr).1]
  | ok n => exact absurd h (scanDefinitions_ok lightIdx split defs newLight n hr).1

/-- Three ways a call of `addShadowTextureDefinition` can end. -/
theorem addShadowTextureDefinition_cases (H : Headers) (s : CompositorShadowNodeDef)
    (lightIdx split : Nat) (name : OgreString) (mrtIndex : Nat)
    (uvOffset uvLength : Vector2) (arrayIdx : Nat) :
    let r := addShadowTextureDefinition H s lightIdx split name mrtIndex uvOffset uvLength
      arrayIdx
    ((name = [] ∨ "global_".toList <+: name) ∧ r.node = s ∧
        r.result = Except.error ExceptionCodes.ERR_INVALIDPARAMS) ∨
    ((name ≠ [] ∧ ¬ "global_".toList <+: name) ∧
        (∃ d ∈ s.mShadowMapTexDefinitions, d.light = lightIdx ∧ d.split = split) ∧
        r.node = s ∧ r.result = Except.error ExceptionCodes.ERR_DUPLICATE_ITEM) ∨
    ((name ≠ [] ∧ ¬ "global_".toList <+: name) ∧
        (¬ ∃ d ∈ s.mShadowMapTexDefinitions, d.light = lightIdx ∧ d.split = split) ∧
        r.result = Except.ok s.mShadowMapTexDefinitions.length ∧
        r.node =
          { s with
            mNumLights :=
              (s.mNumLights +
                if ∃ d ∈ s.mShadowMapTexDefinitions, d.light = lightIdx then 0 else 1) %
                2 ^ 64
            mShadowMapTexDefinitions :=
              s.mShadowMapTexDefinitions ++
                [ShadowTextureDefinition.construct H s.mDefaultTechnique name mrtIndex
                  uvOffset uvLength arrayIdx lightIdx split] }) := by
  intro r
  by_cases he : name = []
  · left
    subst he
    exact ⟨Or.inl rfl, rfl, rfl⟩
  · have hne : name.isEmpty = false := by
      cases name with
      | nil => exact absurd rfl he
      | cons c cs => rfl
    by_cases hg : "global_".toList <+: name
    · left
      have hf : find name "global_".toList = 0 := (find_eq_zero_iff _ _).mpr hg
      refine ⟨Or.inr hg, ?_, ?_⟩ <;>
        simp only [r, addShadowTextureDefinition, hne, hf, Bool.false_eq_true, if_false,
          if_true]
    · right
      have hf : ¬ find name "global_".toList = 0 := fun h => hg ((find_eq_zero_iff _ _).mp h)
      cases hscan : scanDefinitions lightIdx split s.mShadowMapTexDefinitions 1 with
      | error code =>
        left
        obtain ⟨hc, hd⟩ := scanDefinitions_error _ _ _ _ _ hscan
        subst hc
        refine ⟨⟨he, hg⟩, hd, ?_, ?_⟩ <;>
          simp only [r, addShadowTextureDefinition, hne, hf, hscan, Bool.false_eq_true,
            if_false]
      | ok n =>
        right
        obtain ⟨hno, hn⟩ := scanDefinitions_ok _ _ _ _ _ hscan
        refine ⟨⟨he, hg⟩, hno, ?_, ?_⟩
        · simp only [r, addShadowTextureDefinition, hne, hf, hscan, Bool.false_eq_true,
            if_false]
        · simp only [r, addShadowTextureDefinition, hne, hf, hscan, Bool.false_eq_true,
            if_false]
          rw [hn]


/-- Reachable registries hold pairwise different (light, split) pairs. -/
theorem reachable_pairwise (H : Headers) (s : CompositorShadowNodeDef) (hs : Reachable H s) :
    s.mShadowMapTexDefinitions.Pairwise
      (fun a b => ¬ (a.light = b.light ∧ a.split = b.split)) := by
  induction hs with
  | empty s hdefs hnum => rw [hdefs]; exact List.Pairwise.nil
  | add s lightIdx split name mrtIndex uvOffset uvLength arrayIdx hs ih =>
    rcases addShadowTextureDefinition_cases H s lightIdx split name mrtIndex uvOffset
      uvLength arrayIdx with ⟨_, hn, _⟩ | ⟨_, _, hn, _⟩ | ⟨_, hno, _, hn⟩
    · rw [hn]; exact ih
    · rw [hn]; exact ih
    · rw [hn]
      refine List.pairwise_append.mpr ⟨ih, List.pairwise_singleton _ _, ?_⟩
      intro a ha b hb
      rw [List.mem_singleton] at hb
      subst hb
      intro hab
      exact hno ⟨a, ha, hab.1, hab.2⟩

/-- There are at most as many distinct lights as definitions. -/
theorem distinctLights_le_length (defs : List ShadowTextureDefinition) :
    distinctLights defs ≤ defs.length := by
  unfold distinctLights
  calc (defs.map (fun d => d.light)).dedup.length
      ≤ (defs.map (fun d => d.light)).length := (List.dedup_sublist _).length_le
    _ = defs.length := List.length_map _ _

/-- Appending a definition adds one distinct light exactly when its light is new. -/
theorem distinctLights_append_singleton (defs : List ShadowTextureDefinition)
    (d : ShadowTextureDefinition) :
    distinctLights (defs ++ [d]) =
      distinctLights defs + if ∃ e ∈ defs, e.light = d.light then 0 else 1 := by
  unfold distinctLights
  rw [← List.card_toFinset, ← List.card_toFinset]
  have hins : (List.map (fun d => d.light) (defs ++ [d])).toFinset =
      insert d.light (List.map (fun d => d.light) defs).toFinset := by
    ext x
    simp only [List.map_append, List.map_cons, List.map_nil, List.mem_toFinset,
      List.mem_append, List.mem_singleton, Finset.mem_insert]
    tauto
  rw [hins]
  by_cases hex : ∃ e ∈ defs, e.light = d.light
  · have hmem : d.light ∈ (List.map (fun d => d.light) defs).toFinset := by
      rw [List.mem_toFinset, List.mem_map]
      exact hex
    rw [Finset.insert_eq_of_mem hmem, if_pos hex, Nat.add_zero]
  · have hmem : d.light ∉ (List.map (fun d => d.light) defs).toFinset := by
      rw [List.mem_toFinset, List.mem_map]
      exact hex
    rw [Finset.card_insert_of_not_mem hmem, if_neg hex]

/-- In a reachable registry of representable length the counter is the number of distinct lights. -/
theorem reachable_numLights (H : Headers) (s : CompositorShadowNodeDef)
    (hs : Reachable H s) (hlen : s.mShadowMapTexDefinitions.length < 2 ^ 64) :
    s.mNumLights = distinctLights s.mShadowMapTexDefinitions := by
  induction hs with
  | empty s hdefs hnum => rw [hdefs, hnum]; rfl
  | add s lightIdx split name mrtIndex uvOffset uvLength arrayIdx hs ih =>
    rcases addShadowTextureDefinition_cases H s lightIdx split name mrtIndex uvOffset
      uvLength arrayIdx with ⟨_, hn, _⟩ | ⟨_, _, hn, _⟩ | ⟨_, _, _, hn⟩
    · rw [hn] at hlen ⊢; exact ih hlen
    · rw [hn] at hlen ⊢; exact ih hlen
    · rw [hn] at hlen ⊢
      simp only [List.length_append, List.length_singleton] at hlen
      have hprev := ih (by omega)
      have hle := distinctLights_le_length s.mShadowMapTexDefinitions
      simp only
      rw [distinctLights_append_singleton]
      have hlight : (ShadowTextureDefinition.construct H s.mDefaultTechnique name mrtIndex
          uvOffset uvLength arrayIdx lightIdx split).light = lightIdx := rfl
      rw [hlight, hprev]
      apply Nat.mod_eq_of_lt
      split <;> omega

/-- **C1.** In every registry state reached from the empty registry by calls of
`addShadowTextureDefinition` (successful or failing), two stored definitions at
different positions never have the same light and the same split. -/
theorem registry_light_split_unique (H : Headers) (s : CompositorShadowNodeDef)
    (hs : Reachable H s) (i j : Nat) (a b : ShadowTextureDefinition) (hij : i ≠ j)
    (ha : s.mShadowMapTexDefinitions[i]? = some a)
    (hb : s.mShadowMapTexDefinitions[j]? = some b) :
    ¬ (a.light = b.light ∧ a.split = b.split) := by
  have hp := List.pairwise_iff_getElem.mp (reachable_pairwise H s hs)
  obtain ⟨hi, rfl⟩ := List.getElem?_eq_some.mp ha
  obtain ⟨hj, rfl⟩ := List.getElem?_eq_some.mp hb
  rcases Nat.lt_or_gt_of_ne hij with hlt | hgt
  · exact hp i j hi hj hlt
  · intro hab
    exact hp j i hj hi hgt ⟨hab.1.symm, hab.2.symm⟩

/-- C1 on `atlasNode`, a registry reached by three registrations. -/
theorem registry_light_split_unique_witness :
    Reachable sampleHeaders atlasNode ∧
      atlasNode.mShadowMapTexDefinitions.length = 3 ∧
      ∀ a b, atlasNode.mShadowMapTexDefinitions[0]? = some a →
        atlasNode.mShadowMapTexDefinitions[2]? = some b →
        ¬ (a.light = b.light ∧ a.split = b.split) :=
  ⟨Reachable.add _ _ _ _ _ _ _ _ (Reachable.add _ _ _ _ _ _ _ _
      (Reachable.add _ _ _ _ _ _ _ _ (Reachable.empty _ rfl rfl))),
    by decide,
    fun a b ha hb =>
      registry_light_split_unique sampleHeaders atlasNode
        (Reachable.add _ _ _ _ _ _ _ _ (Reachable.add _ _ _ _ _ _ _ _
          (Reachable.add _ _ _ _ _ _ _ _ (Reachable.empty _ rfl rfl))))
        0 2 a b (by decide) ha hb⟩

/-- **C2.** A call of `addShadowTextureDefinition` whose name is empty or starts with
`global_` raises `ERR_INVALIDPARAMS` and leaves the node, hence the definition list
and `mNumLights`, as it was. -/
theorem addShadowTextureDefinition_invalid_name (H : Headers) (s : CompositorShadowNodeDef)
    (lightIdx split : Nat) (name : OgreString) (mrtIndex : Nat)
    (uvOffset uvLength : Vector2) (arrayIdx : Nat)
    (hname : name = [] ∨ "global_".toList <+: name) :
    (addShadowTextureDefinition H s lightIdx split name mrtIndex uvOffset uvLength
        arrayIdx).result = Except.error ExceptionCodes.ERR_INVALIDPARAMS ∧
      (addShadowTextureDefinition H s lightIdx split name mrtIndex uvOffset uvLength
        arrayIdx).node = s := by
  rcases addShadowTextureDefinition_cases H s lightIdx split name mrtIndex uvOffset
    uvLength arrayIdx with ⟨_, hn, hr⟩ | ⟨⟨h1, h2⟩, _⟩ | ⟨⟨h1, h2⟩, _⟩
  · exact ⟨hr, hn⟩
  · rcases hname with h | h
    · exact absurd h h1
    · exact absurd h h2
  · rcases hname with h | h
    · exact absurd h h1
    · exact absurd h h2

/-- C2 on the name `global_atlas`. -/
theorem addShadowTextureDefinition_invalid_name_witness :
    ("global_atlas".toList = [] ∨ "global_".toList <+: "global_atlas".toList) ∧
      (addShadowTextureDefinition sampleHeaders atlasNode 7 0 "global_atlas".toList 0
          ⟨0, 0⟩ ⟨1, 1⟩ 0).result = Except.error ExceptionCodes.ERR_INVALIDPARAMS ∧
      (addShadowTextureDefinition sampleHeaders atlasNode 7 0 "global_atlas".toList 0
          ⟨0, 0⟩ ⟨1, 1⟩ 0).node = atlasNode :=
  ⟨Or.inr (by decide),
    addShadowTextureDefinition_invalid_name sampleHeaders atlasNode 7 0
      "global_atlas".toList 0 ⟨0, 0⟩ ⟨1, 1⟩ 0 (Or.inr (by decide))⟩

/-- **C3.** With a valid name (not empty, not starting with `global_`),
`addShadowTextureDefinition` raises `ERR_DUPLICATE_ITEM` exactly when a stored
definition has the same light and the same split, and a call that ends this way
leaves the node, hence the definition list and `mNumLights`, as it was. -/
theorem addShadowTextureDefinition_duplicate_iff (H : Headers) (s : CompositorShadowNodeDef)
    (lightIdx split : Nat) (name : OgreString) (mrtIndex : Nat)
    (uvOffset uvLength : Vector2) (arrayIdx : Nat)
    (hne : name ≠ []) (hglobal : ¬ "global_".toList <+: name) :
    ((addShadowTextureDefinition H s lightIdx split name mrtIndex uvOffset uvLength
        arrayIdx).result = Except.error ExceptionCodes.ERR_DUPLICATE_ITEM ↔
      ∃ d ∈ s.mShadowMapTexDefinitions, d.light = lightIdx ∧ d.split = split) ∧
    ((addShadowTextureDefinition H s lightIdx split name mrtIndex uvOffset uvLength
        arrayIdx).result = Except.error ExceptionCodes.ERR_DUPLICATE_ITEM →
      (addShadowTextureDefinition H s lightIdx split name mrtIndex uvOffset uvLength
        arrayIdx).node = s) := by
  rcases addShadowTextureDefinition_cases H s lightIdx split name mrtIndex uvOffset
    uvLength arrayIdx with ⟨hbad, _, _⟩ | ⟨_, hd, hn, hr⟩ | ⟨_, hno, hr, _⟩
  · rcases hbad with h | h
    · exact absurd h hne
    · exact absurd h hglobal
  · exact ⟨⟨fun _ => hd, fun _ => hr⟩, fun _ => hn⟩
  · rw [hr]
    refine ⟨⟨fun h => ?_, fun h => absurd h hno⟩, fun h => ?_⟩
    · exact Except.noConfusion h
    · exact Except.noConfusion h

/-- C3 on `atlasNode` and the pair light 0, split 1, which it already holds. -/
theorem addShadowTextureDefinition_duplicate_iff_witness :
    ((addShadowTextureDefinition sampleHeaders atlasNode 0 1 "atlas".toList 0 ⟨0, 0⟩ ⟨1, 1⟩
        0).result = Except.error ExceptionCodes.ERR_DUPLICATE_ITEM ↔
      ∃ d ∈ atlasNode.mShadowMapTexDefinitions, d.light = 0 ∧ d.split = 1) ∧
    ((addShadowTextureDefinition sampleHeaders atlasNode 0 1 "atlas".toList 0 ⟨0, 0⟩ ⟨1, 1⟩
        0).result = Except.error ExceptionCodes.ERR_DUPLICATE_ITEM →
      (addShadowTextureDefinition sampleHeaders atlasNode 0 1 "atlas".toList 0 ⟨0, 0⟩ ⟨1, 1⟩
        0).node = atlasNode) :=
  addShadowTextureDefinition_duplicate_iff sampleHeaders atlasNode 0 1 "atlas".toList 0
    ⟨0, 0⟩ ⟨1, 1⟩ 0 (by decide) (by decide)

/-- **C4.** A successful `addShadowTextureDefinition` raises `mNumLights` by one when
no stored definition has the given light and leaves it alone otherwise (the counter
being below the top of the `size_t` range), and therefore in every registry state
reached from the empty registry `mNumLights` is the number of distinct lights among
the stored definitions (the list being of a length a `size_t` can hold). -/
theorem numLights_counts_distinct_lights (H : Headers) :
    (∀ (s : CompositorShadowNodeDef) (lightIdx split : Nat) (name : OgreString)
        (mrtIndex : Nat) (uvOffset uvLength : Vector2) (arrayIdx idx : Nat),
        s.mNumLights + 1 < 2 ^ 64 →
        (addShadowTextureDefinition H s lightIdx split name mrtIndex uvOffset uvLength
          arrayIdx).result = Except.ok idx →
        (addShadowTextureDefinition H s lightIdx split name mrtIndex uvOffset uvLength
          arrayIdx).node.mNumLights =
          s.mNumLights +
            if ∃ d ∈ s.mShadowMapTexDefinitions, d.light = lightIdx then 0 else 1) ∧
    (∀ s : CompositorShadowNodeDef, Reachable H s →
        s.mShadowMapTexDefinitions.length < 2 ^ 64 →
        s.mNumLights = distinctLights s.mShadowMapTexDefinitions) := by
  refine ⟨?_, fun s hs hlen => reachable_numLights H s hs hlen⟩
  intro s lightIdx split name mrtIndex uvOffset uvLength arrayIdx idx hroom hok
  rcases addShadowTextureDefinition_cases H s lightIdx split name mrtIndex uvOffset
    uvLength arrayIdx with ⟨_, _, hr⟩ | ⟨_, _, _, hr⟩ | ⟨_, _, _, hn⟩
  · rw [hr] at hok; exact Except.noConfusion hok
  · rw [hr] at hok; exact Except.noConfusion hok
  · rw [hn]
    simp only
    apply Nat.mod_eq_of_lt
    split <;> omega

/-- C4 on `atlasNode`: two distinct lights, and a fourth registration for a new light. -/
theorem numLights_counts_distinct_lights_witness :
    atlasNode.mNumLights = 2 ∧ distinctLights atlasNode.mShadowMapTexDefinitions = 2 ∧
      atlasNode.mNumLights = distinctLights atlasNode.mShadowMapTexDefinitions ∧
      (addShadowTextureDefinition sampleHeaders atlasNode 4 0 "atlas".toList 0 ⟨0, 0⟩ ⟨1, 1⟩
          0).node.mNumLights =
        atlasNode.mNumLights +
          if ∃ d ∈ atlasNode.mShadowMapTexDefinitions, d.light = 4 then 0 else 1 :=
  ⟨by decide, by decide,
    (numLights_counts_distinct_lights sampleHeaders).2 atlasNode
      (Reachable.add _ _ _ _ _ _ _ _ (Reachable.add _ _ _ _ _ _ _ _
        (Reachable.add _ _ _ _ _ _ _ _ (Reachable.empty _ rfl rfl))))
      (by decide),
    (numLights_counts_distinct_lights sampleHeaders).1 atlasNode 4 0 "atlas".toList 0
      ⟨0, 0⟩ ⟨1, 1⟩ 0 3 (by decide) rfl⟩

/-- **C5 (as stated, refuted).** `addBufferInput` on the empty node does not end with
an error kind of its own: the code it raises is neither different from the
`ERR_INVALIDPARAMS` of an invalid name nor a third kind. -/
theorem addBufferInput_no_separate_kind :
    ¬ ∃ code, (addBufferInput (emptyNode ShadowMapTechniques.SHADOWMAP_FOCUSED) 0
          ⟨0⟩).result = Except.error code ∧
        code ≠ ExceptionCodes.ERR_INVALIDPARAMS ∧
        code ≠ ExceptionCodes.ERR_DUPLICATE_ITEM := by
  rintro ⟨code, hcode, hne, _⟩
  simp only [addBufferInput] at hcode
  injection hcode with hcode
  exact hne hcode.symm

/-- **C5 (amended).** `addBufferInput` with any arguments, and `addTextureSourceName`
with `TEXTURE_INPUT`, always raise `ERR_INVALIDPARAMS`, the very code raised for an
invalid definition name, and leave the node as it was. -/
theorem input_channels_rejected (s : CompositorShadowNodeDef)
    (base : CompositorShadowNodeDef → OgreString → Nat → TextureSource → Outcome IdString)
    (inputChannel index : Nat) (bufferName : IdString) (name : OgreString)
    (H : Headers) (lightIdx split mrtIndex arrayIdx : Nat) (uvOffset uvLength : Vector2) :
    (addBufferInput s inputChannel bufferName).result =
        Except.error ExceptionCodes.ERR_INVALIDPARAMS ∧
      (addBufferInput s inputChannel bufferName).node = s ∧
      (addTextureSourceName base s name index TextureSource.TEXTURE_INPUT).result =
        Except.error ExceptionCodes.ERR_INVALIDPARAMS ∧
      (addTextureSourceName base s name index TextureSource.TEXTURE_INPUT).node = s ∧
      (addShadowTextureDefinition H s lightIdx split [] mrtIndex uvOffset uvLength
        arrayIdx).result = Except.error ExceptionCodes.ERR_INVALIDPARAMS :=
  ⟨rfl, rfl, rfl, rfl, rfl⟩

/-! ## Validation and finalisation -/

/-- The shadow-map block only raises `ERR_INVALIDPARAMS`. -/
theorem shadowMapStep_thrown (H : Headers) (defs : List ShadowTextureDefinition)
    (rt : IdString) (pass : CompositorPassDef) (mask : Nat) (a : Accum)
    (code : ExceptionCodes)
    (h : (shadowMapStep H defs rt pass mask a).thrown = some code) :
    code = ExceptionCodes.ERR_INVALIDPARAMS := by
  unfold shadowMapStep at h
  cases hget : defs[pass.mShadowMapIdx]? with
  | none => simp [hget] at h
  | some texDef =>
    simp only [hget] at h
    by_cases htech : texDef.shadowMapTechnique = ShadowMapTechniques.SHADOWMAP_PSSM
    · simp [htech] at h
    · by_cases hm : mask = 0
      · simp [htech, hm] at h
        exact h.symm
      · simp [htech, hm] at h

/-- A pass only raises `ERR_INVALIDPARAMS`. -/
theorem passBody_thrown (H : Headers) (defs : List ShadowTextureDefinition)
    (rt : IdString) (pass : CompositorPassDef) (mask : Nat) (a : Accum)
    (code : ExceptionCodes)
    (h : (passBody H defs rt pass mask a).thrown = some code) :
    code = ExceptionCodes.ERR_INVALIDPARAMS := by
  unfold passBody at h
  simp only at h
  split at h
  · rename_i c hc
    simp only [Option.some.injEq] at h
    subst h
    exact shadowMapStep_thrown H defs rt _ mask _ c hc
  · simp at h

/-- The loop over passes only raises `ERR_INVALIDPARAMS`. -/
theorem passLoop_thrown (H : Headers) (defs : List ShadowTextureDefinition)
    (rt : IdString) (passes : List CompositorPassDef) (mask : Nat) (a : Accum)
    (code : ExceptionCodes)
    (h : (passLoop H defs rt passes mask a).thrown = some code) :
    code = ExceptionCodes.ERR_INVALIDPARAMS := by
  induction passes generalizing mask a with
  | nil => simp [passLoop] at h
  | cons p ps ih =>
    unfold passLoop at h
    simp only at h
    split at h
    · rename_i c hc
      simp only [Option.some.injEq] at h
      subst h
      exact passBody_thrown H defs rt p mask a c hc
    · exact ih _ _ h

/-- The loop over targets only raises `ERR_INVALIDPARAMS`. -/
theorem targetLoop_thrown (H : Headers) (defs : List ShadowTextureDefinition)
    (targets : List CompositorTargetDef) (a : Accum) (code : ExceptionCodes)
    (h : (targetLoop H defs targets a).thrown = some code) :
    code = ExceptionCodes.ERR_INVALIDPARAMS := by
  induction targets generalizing a with
  | nil => simp [targetLoop] at h
  | cons t ts ih =>
    unfold targetLoop at h
    simp only at h
    split at h
    · rename_i c hc
      simp only [Option.some.injEq] at h
      subst h
      exact passLoop_thrown H defs t.mRenderTargetName _ _ a c hc
    · exact ih _ h

/-- The loop over definitions raises when it holds a non-PSSM definition with a split. -/
theorem defLoop_throws (done rest : List ShadowTextureDefinition) (log : List LogMessage)
    (d : ShadowTextureDefinition) (hd : d ∈ rest) (hsplit : d.split ≠ 0)
    (htech : d.shadowMapTechnique ≠ ShadowMapTechniques.SHADOWMAP_PSSM) :
    (defLoop done rest log).thrown = some ExceptionCodes.ERR_INVALIDPARAMS := by
  induction rest generalizing done log with
  | nil => cases hd
  | cons e es ih =>
    unfold defLoop
    by_cases he : e.split ≠ 0 ∧ e.shadowMapTechnique ≠ ShadowMapTechniques.SHADOWMAP_PSSM
    · rw [if_pos he]
    · rw [if_neg he]
      rcases List.mem_cons.mp hd with rfl | hmem
      · exact absurd ⟨hsplit, htech⟩ he
      · exact ih _ _ hmem

/-- An exception of the loop over targets ends `_validateAndFinish`. -/
theorem validateAndFinish_thrown_of_targets (H : Headers) (s : CompositorShadowNodeDef)
    (code : ExceptionCodes)
    (h : (targetLoop H s.mShadowMapTexDefinitions s.mTargetPasses
      (initialAccum s)).thrown = some code) :
    (_validateAndFinish H s).thrown = some code := by
  unfold _validateAndFinish
  simp only
  rw [h]

/-- When the loop over targets passes, the loop over definitions decides the outcome. -/
theorem validateAndFinish_thrown_of_defs (H : Headers) (s : CompositorShadowNodeDef)
    (h : (targetLoop H s.mShadowMapTexDefinitions s.mTargetPasses
      (initialAccum s)).thrown = none) :
    (_validateAndFinish H s).thrown =
      (defLoop [] s.mShadowMapTexDefinitions
        (targetLoop H s.mShadowMapTexDefinitions s.mTargetPasses
          (initialAccum s)).acc.log).thrown := by
  unfold _validateAndFinish
  simp only
  rw [h]

/-- **C6.** When some definition of the node has a split other than 0 and a technique
other than `SHADOWMAP_PSSM`, `_validateAndFinish` raises `ERR_INVALIDPARAMS`,
whatever the targets and passes of the node are. -/
theorem validateAndFinish_split_requires_pssm (H : Headers) (s : CompositorShadowNodeDef)
    (d : ShadowTextureDefinition) (hd : d ∈ s.mShadowMapTexDefinitions)
    (hsplit : d.split ≠ 0)
    (htech : d.shadowMapTechnique ≠ ShadowMapTechniques.SHADOWMAP_PSSM) :
    (_validateAndFinish H s).thrown = some ExceptionCodes.ERR_INVALIDPARAMS := by
  cases hta : (targetLoop H s.mShadowMapTexDefinitions s.mTargetPasses
      (initialAccum s)).thrown with
  | some code =>
    rw [validateAndFinish_thrown_of_targets H s code hta,
      targetLoop_thrown H _ _ _ code hta]
  | none =>
    rw [validateAndFinish_thrown_of_defs H s hta]
    exact defLoop_throws [] _ _ d hd hsplit htech

/-- With a zero target mask, a pass referring in bounds to a non-PSSM definition raises. -/
theorem passBody_zero_mask_throws (H : Headers) (defs : List ShadowTextureDefinition)
    (rt : IdString) (pass : CompositorPassDef) (a : Accum) (d : ShadowTextureDefinition)
    (hget : defs[pass.mShadowMapIdx]? = some d)
    (htech : d.shadowMapTechnique ≠ ShadowMapTechniques.SHADOWMAP_PSSM) :
    (passBody H defs rt pass 0 a).thrown = some ExceptionCodes.ERR_INVALIDPARAMS := by
  simp [passBody, shadowMapStep, hget, htech]

/-- A pass whose index is out of bounds neither raises nor touches the target mask. -/
theorem passBody_out_of_bounds (H : Headers) (defs : List ShadowTextureDefinition)
    (rt : IdString) (pass : CompositorPassDef) (mask : Nat) (a : Accum)
    (hget : defs[pass.mShadowMapIdx]? = none) :
    (passBody H defs rt pass mask a).thrown = none ∧
      (passBody H defs rt pass mask a).mask = mask := by
  simp [passBody, shadowMapStep, hget]

/-- With a zero target mask, non-PSSM passes and one index in bounds, the loop over passes raises. -/
theorem passLoop_zero_mask_throws (H : Headers) (defs : List ShadowTextureDefinition)
    (rt : IdString) (passes : List CompositorPassDef) (a : Accum)
    (hin : ∃ p ∈ passes, p.mShadowMapIdx < defs.length)
    (hnp : ∀ p ∈ passes, ∀ d, defs[p.mShadowMapIdx]? = some d →
      d.shadowMapTechnique ≠ ShadowMapTechniques.SHADOWMAP_PSSM) :
    (passLoop H defs rt passes 0 a).thrown = some ExceptionCodes.ERR_INVALIDPARAMS := by
  induction passes generalizing a with
  | nil =>
    obtain ⟨p, hp, _⟩ := hin
    cases hp
  | cons p ps ih =>
    unfold passLoop
    simp only
    cases hget : defs[p.mShadowMapIdx]? with
    | some d =>
      have hthrow := passBody_zero_mask_throws H defs rt p a d hget
        (hnp p (List.mem_cons_self p ps) d hget)
      rw [hthrow]
    | none =>
      obtain ⟨hnone, hmask⟩ := passBody_out_of_bounds H defs rt p 0 a hget
      rw [hnone]
      simp only
      rw [hmask]
      apply ih
      · obtain ⟨q, hq, hlt⟩ := hin
        rcases List.mem_cons.mp hq with rfl | hq
        · rw [List.getElem?_eq_getElem hlt] at hget
          cases hget
        · exact ⟨q, hq, hlt⟩
      · intro q hq
        exact hnp q (List.mem_cons_of_mem p hq)

/-- A target as in `passLoop_zero_mask_throws` makes the loop over targets raise. -/
theorem targetLoop_zero_mask_throws (H : Headers) (defs : List ShadowTextureDefinition)
    (targets : List CompositorTargetDef) (a : Accum) (t : CompositorTargetDef)
    (ht : t ∈ targets) (hmask : t.mShadowMapSupportedLightTypes = 0)
    (hin : ∃ p ∈ t.mCompositorPasses, p.mShadowMapIdx < defs.length)
    (hnp : ∀ p ∈ t.mCompositorPasses, ∀ d, defs[p.mShadowMapIdx]? = some d →
      d.shadowMapTechnique ≠ ShadowMapTechniques.SHADOWMAP_PSSM) :
    (targetLoop H defs targets a).thrown = some ExceptionCodes.ERR_INVALIDPARAMS := by
  induction targets generalizing a with
  | nil => cases ht
  | cons u us ih =>
    unfold targetLoop
    simp only
    cases hu : (passLoop H defs u.mRenderTargetName u.mCompositorPasses
        u.mShadowMapSupportedLightTypes a).thrown with
    | some code =>
      simp only
      rw [passLoop_thrown H defs _ _ _ _ code hu]
    | none =>
      simp only
      rcases List.mem_cons.mp ht with rfl | hmem
      · rw [hmask, passLoop_zero_mask_throws H defs _ _ a hin hnp] at hu
        cases hu
      · exact ih _ hmem

/-- **C7.** When the node has a target whose supported-light-types mask is zero
before the call, which has a pass with a shadow-map index in bounds, and all of whose
passes with an index in bounds refer to definitions that are not PSSM,
`_validateAndFinish` raises `ERR_INVALIDPARAMS`. -/
theorem validateAndFinish_zero_mask_rejected (H : Headers) (s : CompositorShadowNodeDef)
    (t : CompositorTargetDef) (ht : t ∈ s.mTargetPasses)
    (hmask : t.mShadowMapSupportedLightTypes = 0)
    (hin : ∃ p ∈ t.mCompositorPasses,
      p.mShadowMapIdx < s.mShadowMapTexDefinitions.length)
    (hnp : ∀ p ∈ t.mCompositorPasses, ∀ d,
      s.mShadowMapTexDefinitions[p.mShadowMapIdx]? = some d →
      d.shadowMapTechnique ≠ ShadowMapTechniques.SHADOWMAP_PSSM) :
    (_validateAndFinish H s).thrown = some ExceptionCodes.ERR_INVALIDPARAMS :=
  validateAndFinish_thrown_of_targets H s _
    (targetLoop_zero_mask_throws H _ _ _ t ht hmask hin hnp)

/-- `SameKey` is reflexive. -/
theorem sameKey_refl (x : ShadowTextureDefinition) : SameKey x x := ⟨rfl, rfl, rfl⟩

/-- `SameKey` is transitive. -/
theorem sameKey_trans {x y z : ShadowTextureDefinition} (h1 : SameKey x y)
    (h2 : SameKey y z) : SameKey x z :=
  ⟨h1.1.trans h2.1, h1.2.1.trans h2.2.1, h1.2.2.trans h2.2.2⟩

/-- `SharesSetup` only looks at light, split and technique. -/
theorem sharesSetup_congr {b b' a a' : ShadowTextureDefinition} (hb : SameKey b' b)
    (ha : SameKey a' a) : SharesSetup b' a' ↔ SharesSetup b a := by
  unfold SharesSetup
  rw [hb.1, hb.2.1, hb.2.2, ha.1, ha.2.1, ha.2.2]

/-- The split limit keeps light, split, technique and link. -/
theorem limitSplits_sameKey (d : ShadowTextureDefinition) (log : List LogMessage) :
    SameKey (limitSplits d log).1 d ∧
      (limitSplits d log).1.sharesSetupWith = d.sharesSetupWith := by
  unfold limitSplits
  split
  · exact ⟨⟨rfl, rfl, rfl⟩, rfl⟩
  · exact ⟨⟨rfl, rfl, rfl⟩, rfl⟩

/-- The sharing scan keeps light, split and technique. -/
theorem shareScan_sameKey (bs : List ShadowTextureDefinition) (idx : Nat)
    (d : ShadowTextureDefinition) (log : List LogMessage) :
    SameKey (shareScan bs idx d log).1 d := by
  induction bs generalizing idx log with
  | nil => exact sameKey_refl d
  | cons b bs ih =>
    unfold shareScan
    by_cases hl : b.light = d.light
    · by_cases hs : b.split = d.split
      · rw [if_pos hl, if_pos hs]
        exact ih _ _
      · rw [if_pos hl, if_neg hs, if_pos hs]
        split
        · exact ⟨rfl, rfl, rfl⟩
        · exact ⟨rfl, rfl, rfl⟩
    · by_cases ht : b.shadowMapTechnique = d.shadowMapTechnique
      · rw [if_neg hl, if_pos ht]
        exact ⟨rfl, rfl, rfl⟩
      · rw [if_neg hl, if_neg ht]
        exact ih _ _

/-- Without a matching predecessor the scan returns the definition as it was. -/
theorem shareScan_no_match (bs : List ShadowTextureDefinition) (idx : Nat)
    (d : ShadowTextureDefinition) (log : List LogMessage)
    (hnone : ∀ b ∈ bs, ¬ SharesSetup b d) :
    (shareScan bs idx d log).1 = d := by
  induction bs generalizing idx log with
  | nil => rfl
  | cons b bs ih =>
    have hb : ¬ SharesSetup b d := hnone b (List.mem_cons_self b bs)
    have hrest : ∀ c ∈ bs, ¬ SharesSetup c d := fun c hc =>
      hnone c (List.mem_cons_of_mem b hc)
    unfold shareScan
    by_cases hl : b.light = d.light
    · by_cases hs : b.split = d.split
      · rw [if_pos hl, if_pos hs]
        exact ih _ _ hrest
      · exact absurd (Or.inl ⟨hl, hs⟩) hb
    · by_cases ht : b.shadowMapTechnique = d.shadowMapTechnique
      · exact absurd (Or.inr ⟨hl, ht⟩) hb
      · rw [if_neg hl, if_neg ht]
        exact ih _ _ hrest

/-- The scan links the definition to its first matching predecessor. -/
theorem shareScan_first_match (bs : List ShadowTextureDefinition) (idx : Nat)
    (d : ShadowTextureDefinition) (log : List LogMessage) (k : Nat)
    (b : ShadowTextureDefinition) (hb : bs[k]? = some b) (hm : SharesSetup b d)
    (hfirst : ∀ k' c, k' < k → bs[k']? = some c → ¬ SharesSetup c d) :
    (shareScan bs idx d log).1.sharesSetupWith = idx + k := by
  induction bs generalizing idx log k with
  | nil => simp at hb
  | cons e es ih =>
    cases k with
    | zero =>
      simp only [List.getElem?_cons_zero, Option.some.injEq] at hb
      subst hb
      unfold shareScan
      rcases hm with ⟨hl, hs⟩ | ⟨hl, ht⟩
      · rw [if_pos hl, if_neg hs, if_pos hs]
        split <;> rfl
      · rw [if_neg hl, if_pos ht]
        rfl
    | succ k =>
      have he : ¬ SharesSetup e d := hfirst 0 e (Nat.succ_pos k) (by simp)
      have hb' : es[k]? = some b := by simpa using hb
      have hfirst' : ∀ k' c, k' < k → es[k']? = some c → ¬ SharesSetup c d := by
        intro k' c hk hc
        exact hfirst (k' + 1) c (Nat.succ_lt_succ hk) (by simpa using hc)
      unfold shareScan
      by_cases hl : e.light = d.light
      · by_cases hs : e.split = d.split
        · rw [if_pos hl, if_pos hs, ih (idx + 1) _ k hb' hfirst']
          omega
        · exact absurd (Or.inl ⟨hl, hs⟩) he
      · by_cases ht : e.shadowMapTechnique = d.shadowMapTechnique
        · exact absurd (Or.inr ⟨hl, ht⟩) he
        · rw [if_neg hl, if_neg ht, ih (idx + 1) _ k hb' hfirst']
          omega

/-- Shape of a run of `defLoop` that does not raise. -/
theorem defLoop_spec (done rest : List ShadowTextureDefinition) (log : List LogMessage)
    (hok : (defLoop done rest log).thrown = none) :
    ∃ out, (defLoop done rest log).defs = done ++ out ∧ out.length = rest.length ∧
      ∀ i d, rest[i]? = some d → ∃ log1 log2,
        out[i]? = some (shareScan (done ++ out.take i) 0 (limitSplits d log1).1 log2).1 := by
  induction rest generalizing done log with
  | nil =>
    refine ⟨[], ?_, rfl, ?_⟩
    · simp [defLoop]
    · intro i d hd
      simp at hd
  | cons e es ih =>
    unfold defLoop at hok ⊢
    by_cases he : e.split ≠ 0 ∧ e.shadowMapTechnique ≠ ShadowMapTechniques.SHADOWMAP_PSSM
    · rw [if_pos he] at hok
      cases hok
    · rw [if_neg he] at hok ⊢
      simp only at hok ⊢
      obtain ⟨out, hdefs, hlen, hspec⟩ := ih _ _ hok
      refine ⟨(shareScan done 0 (limitSplits e log).1 (limitSplits e log).2).1 :: out,
        ?_, ?_, ?_⟩
      · rw [hdefs]
        simp
      · simp [hlen]
      · intro i d hd
        cases i with
        | zero =>
          simp only [List.getElem?_cons_zero, Option.some.injEq] at hd
          subst hd
          exact ⟨log, (limitSplits e log).2, by simp⟩
        | succ i =>
          have hd' : es[i]? = some d := by simpa using hd
          obtain ⟨log1, log2, hout⟩ := hspec i d hd'
          refine ⟨log1, log2, ?_⟩
          simp only [List.getElem?_cons_succ, List.take_succ_cons]
          rw [hout]
          simp

/-- What a successful `_validateAndFinish` is made of. -/
theorem validateAndFinish_ok (H : Headers) (s : CompositorShadowNodeDef)
    (hok : (_validateAndFinish H s).thrown = none) :
    (targetLoop H s.mShadowMapTexDefinitions s.mTargetPasses (initialAccum s)).thrown = none ∧
    (defLoop [] s.mShadowMapTexDefinitions
      (targetLoop H s.mShadowMapTexDefinitions s.mTargetPasses
        (initialAccum s)).acc.log).thrown = none ∧
    (_validateAndFinish H s).node.mShadowMapTexDefinitions =
      (defLoop [] s.mShadowMapTexDefinitions
        (targetLoop H s.mShadowMapTexDefinitions s.mTargetPasses
          (initialAccum s)).acc.log).defs ∧
    (_validateAndFinish H s).node.mLightTypesMask =
      (targetLoop H s.mShadowMapTexDefinitions s.mTargetPasses
        (initialAccum s)).acc.mLightTypesMask ∧
    (_validateAndFinish H s).node.mTargetPasses =
      (targetLoop H s.mShadowMapTexDefinitions s.mTargetPasses (initialAccum s)).targets := by
  unfold _validateAndFinish at hok ⊢
  simp only at hok ⊢
  cases hta : (targetLoop H s.mShadowMapTexDefinitions s.mTargetPasses
      (initialAccum s)).thrown with
  | some code =>
    rw [hta] at hok
    cases hok
  | none =>
    rw [hta] at hok
    simp only at hok
    exact ⟨rfl, hok, rfl, rfl, rfl⟩

/-- Every definition in the output of `defLoop` is the scan of its own rewritten predecessors. -/
theorem defLoop_resolved (rest : List ShadowTextureDefinition) (log : List LogMessage)
    (hok : (defLoop [] rest log).thrown = none) :
    (defLoop [] rest log).defs.length = rest.length ∧
      ∀ i d, rest[i]? = some d → ∃ d' log1 log2,
        (defLoop [] rest log).defs[i]? = some d' ∧ SameKey d' d ∧
        d' = (shareScan ((defLoop [] rest log).defs.take i) 0 (limitSplits d log1).1
          log2).1 := by
  obtain ⟨out, hdefs, hlen, hspec⟩ := defLoop_spec [] rest log hok
  rw [List.nil_append] at hdefs
  rw [hdefs]
  refine ⟨hlen, ?_⟩
  intro i d hd
  obtain ⟨log1, log2, hout⟩ := hspec i d hd
  rw [List.nil_append] at hout
  exact ⟨_, log1, log2, hout,
    sameKey_trans (shareScan_sameKey _ _ _ _) (limitSplits_sameKey d log1).1, rfl⟩

/-- First-predecessor characterisation for the output of `defLoop`. -/
theorem defLoop_first_predecessor (rest : List ShadowTextureDefinition)
    (log : List LogMessage) (hok : (defLoop [] rest log).thrown = none)
    (i : Nat) (a : ShadowTextureDefinition) (ha : rest[i]? = some a) :
    ∃ a', (defLoop [] rest log).defs[i]? = some a' ∧
      (∀ j b, j < i → rest[j]? = some b → SharesSetup b a →
        (∀ k c, k < j → rest[k]? = some c → ¬ SharesSetup c a) →
        a'.sharesSetupWith = j) ∧
      ((∀ j b, j < i → rest[j]? = some b → ¬ SharesSetup b a) →
        a'.sharesSetupWith = a.sharesSetupWith) := by
  obtain ⟨hlen, hres⟩ := defLoop_resolved rest log hok
  obtain ⟨a', log1, log2, hget, _, hval⟩ := hres i a ha
  have hilt : i < rest.length := (List.getElem?_eq_some.mp ha).1
  -- entries of the rewritten prefix carry the keys of the original ones
  have hprefix : ∀ k c', ((defLoop [] rest log).defs.take i)[k]? = some c' →
      k < i ∧ ∃ c, rest[k]? = some c ∧ SameKey c' c := by
    intro k c' hc'
    rw [List.getElem?_take] at hc'
    split at hc'
    · rename_i hk
      refine ⟨hk, ?_⟩
      have hklt : k < rest.length := Nat.lt_trans hk hilt
      obtain ⟨c'', _, _, hget'', hkey, _⟩ := hres k rest[k] (List.getElem?_eq_getElem hklt)
      rw [hget''] at hc'
      cases hc'
      exact ⟨rest[k], List.getElem?_eq_getElem hklt, hkey⟩
    · cases hc'
  have hprefix' : ∀ k c, k < i → rest[k]? = some c →
      ∃ c', ((defLoop [] rest log).defs.take i)[k]? = some c' ∧ SameKey c' c := by
    intro k c hk hc
    obtain ⟨c', _, _, hget', hkey, _⟩ := hres k c hc
    refine ⟨c', ?_, hkey⟩
    rw [List.getElem?_take, if_pos hk]
    exact hget'
  have hakey : SameKey (limitSplits a log1).1 a := (limitSplits_sameKey a log1).1
  refine ⟨a', hget, ?_, ?_⟩
  · intro j b hj hb hm hfirst
    obtain ⟨b', hb', hbkey⟩ := hprefix' j b hj hb
    rw [hval]
    rw [shareScan_first_match _ 0 _ log2 j b' hb' ((sharesSetup_congr hbkey hakey).mpr hm)]
    · omega
    · intro k c' hk hc' hshare
      obtain ⟨_, c, hc, hckey⟩ := hprefix k c' hc'
      exact hfirst k c hk hc ((sharesSetup_congr hckey hakey).mp hshare)
  · intro hnone
    rw [hval, shareScan_no_match]
    · exact (limitSplits_sameKey a log1).2
    · intro c' hc' hshare
      obtain ⟨k, hk⟩ := List.getElem?_of_mem hc'
      obtain ⟨hki, c, hc, hckey⟩ := hprefix k c' hk
      exact hnone k c hki hc ((sharesSetup_congr hckey hakey).mp hshare)

/-- Unfolding of `passesLightTypes` at the first pass. -/
theorem passesLightTypes_cons (H : Headers) (defs : List ShadowTextureDefinition)
    (L mask : Nat) (p : CompositorPassDef) (ps : List CompositorPassDef) :
    passesLightTypes H defs L mask (p :: ps) =
      (if refersToLight defs L p then
          (if refersToPssm defs p then 1 <<< H.LT_DIRECTIONAL else mask)
        else 0) |||
        passesLightTypes H defs L
          (if refersToPssm defs p then 1 <<< H.LT_DIRECTIONAL else mask) ps := by
  unfold passesLightTypes orAll
  rw [List.length_cons, List.range_succ_eq_map, List.map_cons, List.foldr_cons,
    List.map_map]
  congr 1
  · simp
  · congr 1
    apply List.map_congr_left
    intro k _
    simp only [Function.comp, Nat.succ_eq_add_one, List.getElem?_cons_succ,
      List.take_succ_cons, List.any_cons]
    cases ps[k]? with
    | none => rfl
    | some q =>
      simp only
      by_cases h1 : refersToPssm defs p = true
      · simp [h1]
      · simp [h1]

/-- Effect of one accumulation on an entry the vector has. -/
theorem accumulateLightTypes_getD (lightIdx mask : Nat) (a : Accum) (L : Nat)
    (hL : L < a.mLightTypesMask.length) :
    (accumulateLightTypes lightIdx mask a).mLightTypesMask.length =
        a.mLightTypesMask.length ∧
      (accumulateLightTypes lightIdx mask a).mLightTypesMask.getD L 0 =
        a.mLightTypesMask.getD L 0 ||| (if lightIdx = L then mask else 0) := by
  unfold accumulateLightTypes
  by_cases hlt : lightIdx < a.mLightTypesMask.length
  · rw [if_pos hlt]
    refine ⟨List.length_set _ _ _, ?_⟩
    simp only [List.getD_eq_getElem?_getD, List.getElem?_set]
    by_cases he : lightIdx = L
    · subst he
      simp [hlt]
    · simp [he]
  · rw [if_neg hlt]
    refine ⟨rfl, ?_⟩
    have hne : lightIdx ≠ L := by omega
    simp [hne]

/-- The scene block leaves `mLightTypesMask` alone. -/
theorem sceneStep_mask (H : Headers) (pass : CompositorPassDef) (a : Accum) :
    (sceneStep H pass a).2.mLightTypesMask = a.mLightTypesMask := by
  unfold sceneStep
  split <;> rfl

/-- Effect of one pass on the target mask and on an entry of `mLightTypesMask`. -/
theorem passBody_lightTypes (H : Headers) (defs : List ShadowTextureDefinition)
    (rt : IdString) (p : CompositorPassDef) (mask : Nat) (a : Accum) (L : Nat)
    (hL : L < a.mLightTypesMask.length)
    (hok : (passBody H defs rt p mask a).thrown = none) :
    (passBody H defs rt p mask a).mask =
        (if refersToPssm defs p then 1 <<< H.LT_DIRECTIONAL else mask) ∧
      (passBody H defs rt p mask a).acc.mLightTypesMask.length =
        a.mLightTypesMask.length ∧
      (passBody H defs rt p mask a).acc.mLightTypesMask.getD L 0 =
        a.mLightTypesMask.getD L 0 |||
          (if refersToLight defs L p then
            (if refersToPssm defs p then 1 <<< H.LT_DIRECTIONAL else mask)
          else 0) := by
  unfold passBody at hok ⊢
  simp only at hok ⊢
  unfold shadowMapStep at hok ⊢
  unfold refersToPssm refersToLight
  cases hget : defs[p.mShadowMapIdx]? with
  | none =>
    simp only [hget] at hok ⊢
    simp only [sceneStep_mask]
    refine ⟨by simp, ?_, ?_⟩
    · split <;> rfl
    · split <;> simp
  | some d =>
    simp only [hget] at hok ⊢
    by_cases htech : d.shadowMapTechnique = ShadowMapTechniques.SHADOWMAP_PSSM
    · simp only [htech, if_true, decide_True] at hok ⊢
      simp only [sceneStep_mask]
      have hacc := fun a' (h' : L < a'.mLightTypesMask.length) =>
        accumulateLightTypes_getD d.light (1 <<< H.LT_DIRECTIONAL) a' L h'
      refine ⟨trivial, ?_, ?_⟩
      · split
        · exact (hacc _ (by simpa using hL)).1
        · exact (hacc _ hL).1
      · split
        · rw [(hacc _ (by simpa using hL)).2]
          by_cases hd : d.light = L <;> simp [hd]
        · rw [(hacc _ hL).2]
          by_cases hd : d.light = L <;> simp [hd]
    · by_cases hm : mask = 0
      · simp [htech, hm] at hok
      · simp only [htech, hm, if_false, decide_False] at hok ⊢
        simp only [sceneStep_mask]
        have hacc := fun a' (h' : L < a'.mLightTypesMask.length) =>
          accumulateLightTypes_getD d.light mask a' L h'
        refine ⟨by simp, ?_, ?_⟩
        · split
          · exact (hacc _ (by simpa using hL)).1
          · exact (hacc _ hL).1
        · split
          · rw [(hacc _ (by simpa using hL)).2]
            by_cases hd : d.light = L <;> simp [hd]
          · rw [(hacc _ hL).2]
            by_cases hd : d.light = L <;> simp [hd]

/-- Effect of the passes of a target on an entry of `mLightTypesMask`. -/
theorem passLoop_lightTypes (H : Headers) (defs : List ShadowTextureDefinition)
    (rt : IdString) (passes : List CompositorPassDef) (mask : Nat) (a : Accum) (L : Nat)
    (hL : L < a.mLightTypesMask.length)
    (hok : (passLoop H defs rt passes mask a).thrown = none) :
    (passLoop H defs rt passes mask a).acc.mLightTypesMask.length =
        a.mLightTypesMask.length ∧
      (passLoop H defs rt passes mask a).acc.mLightTypesMask.getD L 0 =
        a.mLightTypesMask.getD L 0 ||| passesLightTypes H defs L mask passes := by
  induction passes generalizing mask a with
  | nil =>
    refine ⟨rfl, ?_⟩
    simp [passLoop, passesLightTypes, orAll]
  | cons p ps ih =>
    unfold passLoop at hok ⊢
    simp only at hok ⊢
    cases hp : (passBody H defs rt p mask a).thrown with
    | some code =>
      rw [hp] at hok
      cases hok
    | none =>
      rw [hp] at hok
      simp only [hp] at hok ⊢
      obtain ⟨hmask, hlen, hval⟩ := passBody_lightTypes H defs rt p mask a L hL hp
      obtain ⟨hlen', hval'⟩ := ih _ _ (by rw [hlen]; exact hL) hok
      refine ⟨hlen'.trans hlen, ?_⟩
      rw [hval', hval, hmask, passesLightTypes_cons, Nat.lor_assoc]

/-- Effect of all targets on an entry of `mLightTypesMask`. -/
theorem targetLoop_lightTypes (H : Headers) (defs : List ShadowTextureDefinition)
    (targets : List CompositorTargetDef) (a : Accum) (L : Nat)
    (hL : L < a.mLightTypesMask.length)
    (hok : (targetLoop H defs targets a).thrown = none) :
    (targetLoop H defs targets a).acc.mLightTypesMask.length =
        a.mLightTypesMask.length ∧
      (targetLoop H defs targets a).acc.mLightTypesMask.getD L 0 =
        a.mLightTypesMask.getD L 0 ||| expectedLightTypes H defs targets L := by
  induction targets generalizing a with
  | nil =>
    refine ⟨rfl, ?_⟩
    simp [targetLoop, expectedLightTypes, orAll]
  | cons t ts ih =>
    unfold targetLoop at hok ⊢
    simp only at hok ⊢
    cases ht : (passLoop H defs t.mRenderTargetName t.mCompositorPasses
        t.mShadowMapSupportedLightTypes a).thrown with
    | some code =>
      rw [ht] at hok
      cases hok
    | none =>
      rw [ht] at hok
      simp only [ht] at hok ⊢
      obtain ⟨hlen, hval⟩ := passLoop_lightTypes H defs _ _ _ a L hL ht
      obtain ⟨hlen', hval'⟩ := ih _ (by rw [hlen]; exact hL) hok
      refine ⟨hlen'.trans hlen, ?_⟩
      rw [hval', hval, Nat.lor_assoc]
      rfl

/-- `resize` gives the requested length. -/
theorem length_resize (v : List Nat) (n value : Nat) : (resize v n value).length = n := by
  unfold resize
  simp only [List.length_append, List.length_take, List.length_replicate]
  omega

/-- **C10 (amended).** After a successful `_validateAndFinish`, for every light
`L` below `mNumLights`, `mLightTypesMask[L]` is the value the entry has after the
initial resize (zero on a node finalised for the first time) OR-ed with, for every
pass of every target whose shadow-map index is in bounds and refers to a definition
of light `L`, the mask its target holds when that pass is handled: the directional
bit once that pass or an earlier pass of the target refers to a PSSM definition, the
mask the target had before the call otherwise. -/
theorem lightTypesMask_accumulates (H : Headers) (s : CompositorShadowNodeDef)
    (hok : (_validateAndFinish H s).thrown = none) (L : Nat) (hL : L < s.mNumLights) :
    (_validateAndFinish H s).node.mLightTypesMask[L]? =
      some ((resize s.mLightTypesMask s.mNumLights 0).getD L 0 |||
        expectedLightTypes H s.mShadowMapTexDefinitions s.mTargetPasses L) := by
  obtain ⟨hta, _, _, hmask, _⟩ := validateAndFinish_ok H s hok
  have hL0 : L < (initialAccum s).mLightTypesMask.length := by
    unfold initialAccum
    simp only [length_resize]
    exact hL
  obtain ⟨hlen, hval⟩ := targetLoop_lightTypes H _ _ (initialAccum s) L hL0 hta
  rw [hmask]
  have hlt : L < (targetLoop H s.mShadowMapTexDefinitions s.mTargetPasses
      (initialAccum s)).acc.mLightTypesMask.length := by rw [hlen]; exact hL0
  rw [List.getElem?_eq_getElem hlt]
  rw [List.getD_eq_getElem?_getD, List.getElem?_eq_getElem hlt] at hval
  simp only [Option.getD_some] at hval
  rw [hval]
  rfl

/-! ## Worked examples and the sharing links -/

/-- C6 on a node whose only definition is focused with split 1. -/
theorem validateAndFinish_split_requires_pssm_witness :
    (∃ d ∈ focusedSplitNode.mShadowMapTexDefinitions, d.split ≠ 0 ∧
        d.shadowMapTechnique ≠ ShadowMapTechniques.SHADOWMAP_PSSM) ∧
      (_validateAndFinish sampleHeaders focusedSplitNode).thrown =
        some ExceptionCodes.ERR_INVALIDPARAMS :=
  ⟨⟨ShadowTextureDefinition.construct sampleHeaders ShadowMapTechniques.SHADOWMAP_FOCUSED
      "atlas".toList 0 ⟨0, 0⟩ ⟨1, 1⟩ 0 0 1, by decide, by decide, by decide⟩,
    validateAndFinish_split_requires_pssm sampleHeaders focusedSplitNode
      (ShadowTextureDefinition.construct sampleHeaders ShadowMapTechniques.SHADOWMAP_FOCUSED
        "atlas".toList 0 ⟨0, 0⟩ ⟨1, 1⟩ 0 0 1)
      (by decide) (by decide) (by decide)⟩

/-- C7 on `zeroMaskNode`. -/
theorem validateAndFinish_zero_mask_rejected_witness :
    (_validateAndFinish sampleHeaders zeroMaskNode).thrown =
      some ExceptionCodes.ERR_INVALIDPARAMS :=
  validateAndFinish_zero_mask_rejected sampleHeaders zeroMaskNode
    { mRenderTargetName := ⟨5⟩
      mShadowMapSupportedLightTypes := 0
      mCompositorPasses := [samplePass 0] }
    (by decide) rfl ⟨samplePass 0, by decide, by decide⟩
    (by
      intro p hp d hd
      have hp0 : p = samplePass 0 := by simpa using hp
      subst hp0
      have hd0 : d = ShadowTextureDefinition.construct sampleHeaders
          ShadowMapTechniques.SHADOWMAP_FOCUSED "atlas".toList 0 ⟨0, 0⟩ ⟨1, 1⟩ 0 0 0 := by
        have : zeroMaskNode.mShadowMapTexDefinitions[(samplePass 0).mShadowMapIdx]? =
            some (ShadowTextureDefinition.construct sampleHeaders
              ShadowMapTechniques.SHADOWMAP_FOCUSED "atlas".toList 0 ⟨0, 0⟩ ⟨1, 1⟩ 0 0 0) := rfl
        rw [this] at hd
        exact (Option.some.inj hd).symm
      subst hd0
      decide)

/-- First-predecessor characterisation of the links after `_validateAndFinish`. -/
theorem validateAndFinish_first_predecessor (H : Headers) (s : CompositorShadowNodeDef)
    (hok : (_validateAndFinish H s).thrown = none) (i : Nat) (a : ShadowTextureDefinition)
    (ha : s.mShadowMapTexDefinitions[i]? = some a) :
    ∃ a' : ShadowTextureDefinition,
      (_validateAndFinish H s).node.mShadowMapTexDefinitions[i]? = some a' ∧
      (∀ (j : Nat) (b : ShadowTextureDefinition), j < i →
        s.mShadowMapTexDefinitions[j]? = some b → SharesSetup b a →
        (∀ (k : Nat) (c : ShadowTextureDefinition), k < j →
          s.mShadowMapTexDefinitions[k]? = some c → ¬ SharesSetup c a) →
        a'.sharesSetupWith = j) ∧
      ((∀ (j : Nat) (b : ShadowTextureDefinition), j < i →
          s.mShadowMapTexDefinitions[j]? = some b → ¬ SharesSetup b a) →
        a'.sharesSetupWith = a.sharesSetupWith) := by
  obtain ⟨_, hdefs, hnode, _, _⟩ := validateAndFinish_ok H s hok
  rw [hnode]
  exact defLoop_first_predecessor _ _ hdefs i a ha

/-- **C8.** After a successful `_validateAndFinish`, the definition at position `i`
is linked to the smallest position `j < i` whose definition has the same light and a
different split, or a different light and the same technique, and keeps its link when
there is no such position. In particular, for three definitions of one technique,
light 1 split 0, light 1 split 1 and light 2 split 0, the second and the third are
both linked to position 0. -/
theorem sharesSetupWith_first_predecessor (H : Headers) (s : CompositorShadowNodeDef)
    (hok : (_validateAndFinish H s).thrown = none) :
    (∀ (i : Nat) (a : ShadowTextureDefinition), s.mShadowMapTexDefinitions[i]? = some a →
      ∃ a' : ShadowTextureDefinition,
        (_validateAndFinish H s).node.mShadowMapTexDefinitions[i]? = some a' ∧
        (∀ (j : Nat) (b : ShadowTextureDefinition), j < i →
          s.mShadowMapTexDefinitions[j]? = some b → SharesSetup b a →
          (∀ (k : Nat) (c : ShadowTextureDefinition), k < j →
            s.mShadowMapTexDefinitions[k]? = some c → ¬ SharesSetup c a) →
          a'.sharesSetupWith = j) ∧
        ((∀ (j : Nat) (b : ShadowTextureDefinition), j < i →
            s.mShadowMapTexDefinitions[j]? = some b → ¬ SharesSetup b a) →
          a'.sharesSetupWith = a.sharesSetupWith)) ∧
    (∀ A B C : ShadowTextureDefinition, s.mShadowMapTexDefinitions = [A, B, C] →
      A.light = 1 → A.split = 0 → B.light = 1 → B.split = 1 → C.light = 2 → C.split = 0 →
      B.shadowMapTechnique = A.shadowMapTechnique →
      C.shadowMapTechnique = A.shadowMapTechnique →
      ∃ B' C' : ShadowTextureDefinition,
        (_validateAndFinish H s).node.mShadowMapTexDefinitions[1]? = some B' ∧
        (_validateAndFinish H s).node.mShadowMapTexDefinitions[2]? = some C' ∧
        B'.sharesSetupWith = 0 ∧ C'.sharesSetupWith = 0) := by
  have hgen := validateAndFinish_first_predecessor H s hok
  refine ⟨hgen, ?_⟩
  intro A B C hABC hAl hAs hBl hBs hCl hCs hBt hCt
  have hA : s.mShadowMapTexDefinitions[0]? = some A := by rw [hABC]; rfl
  have hB : s.mShadowMapTexDefinitions[1]? = some B := by rw [hABC]; rfl
  have hC : s.mShadowMapTexDefinitions[2]? = some C := by rw [hABC]; rfl
  obtain ⟨B', hB', hBfirst, _⟩ := hgen 1 B hB
  obtain ⟨C', hC', hCfirst, _⟩ := hgen 2 C hC
  refine ⟨B', C', hB', hC', ?_, ?_⟩
  · apply hBfirst 0 A Nat.one_pos hA
    · left
      exact ⟨by rw [hAl, hBl], by rw [hAs, hBs]; decide⟩
    · intro k c hk
      exact absurd hk (Nat.not_lt_zero k)
  · apply hCfirst 0 A (by decide) hA
    · right
      exact ⟨by rw [hAl, hCl]; decide, hCt.symm⟩
    · intro k c hk
      exact absurd hk (Nat.not_lt_zero k)

/-- C8 on the three-definition example, with PSSM as the common technique. -/
theorem sharesSetupWith_first_predecessor_witness :
    (_validateAndFinish sampleHeaders threeCascadesNode).thrown = none ∧
      ∃ B' C',
        (_validateAndFinish sampleHeaders threeCascadesNode).node.mShadowMapTexDefinitions[1]? =
          some B' ∧
        (_validateAndFinish sampleHeaders threeCascadesNode).node.mShadowMapTexDefinitions[2]? =
          some C' ∧
        B'.sharesSetupWith = 0 ∧ C'.sharesSetupWith = 0 :=
  ⟨by decide,
    (sharesSetupWith_first_predecessor sampleHeaders threeCascadesNode (by decide)).2
      _ _ _ rfl rfl rfl rfl rfl rfl rfl rfl rfl⟩

/-- **C9 (failing input).** On `mismatchNode` finalisation succeeds, yet the two PSSM
definitions of light 1 (splits 0 and 1) end with three and four splits: the scan for
the later one stops at the PSSM definition of light 0 and never reaches its
same-light predecessor. -/
theorem numSplits_left_unequal :
    (_validateAndFinish sampleHeaders mismatchNode).thrown = none ∧
      (_validateAndFinish sampleHeaders mismatchNode).node.mShadowMapTexDefinitions.map
          (fun d => (d.light, d.split, d.shadowMapTechnique, d.numSplits,
            d.sharesSetupWith)) =
        [(0, 0, ShadowMapTechniques.SHADOWMAP_PSSM, 3, 2 ^ 64 - 1),
         (1, 0, ShadowMapTechniques.SHADOWMAP_PSSM, 3, 0),
         (1, 1, ShadowMapTechniques.SHADOWMAP_PSSM, 4, 0)] := by
  decide

/-- **C10 (as stated, refuted).** On `mixedTargetNode` finalisation succeeds with
`mLightTypesMask = [6, 1]`. The one target has a pass for light 0 and a pass for
light 1; its mask is 6 before the call and 1 after it. So the entry of light 0 is not
the OR of the target masks read after the call, and the entry of light 1 is not the
OR of the target masks read before the call. -/
theorem lightTypesMask_not_or_of_target_masks :
    (_validateAndFinish sampleHeaders mixedTargetNode).thrown = none ∧
      (_validateAndFinish sampleHeaders mixedTargetNode).node.mLightTypesMask = [6, 1] ∧
      claimedLightTypes mixedTargetNode.mShadowMapTexDefinitions
        (_validateAndFinish sampleHeaders mixedTargetNode).node.mTargetPasses 0 = 1 ∧
      claimedLightTypes mixedTargetNode.mShadowMapTexDefinitions
        mixedTargetNode.mTargetPasses 1 = 6 := by
  decide

/-- Amended C10 on `mixedTargetNode` and light 1. -/
theorem lightTypesMask_accumulates_witness :
    (_validateAndFinish sampleHeaders mixedTargetNode).thrown = none ∧
      1 < mixedTargetNode.mNumLights ∧
      (_validateAndFinish sampleHeaders mixedTargetNode).node.mLightTypesMask[1]? =
        some ((resize mixedTargetNode.mLightTypesMask mixedTargetNode.mNumLights 0).getD 1 0 |||
          expectedLightTypes sampleHeaders mixedTargetNode.mShadowMapTexDefinitions
            mixedTargetNode.mTargetPasses 1) :=
  ⟨by decide, by decide,
    lightTypesMask_accumulates sampleHeaders mixedTargetNode (by decide) 1 (by decide)⟩

/-! ## Passes, split limits and what a failure leaves behind -/

/-- The mask a target holds after one of its passes that did not raise. -/
theorem passBody_mask (H : Headers) (defs : List ShadowTextureDefinition)
    (rt : IdString) (p : CompositorPassDef) (mask : Nat) (a : Accum) :
    (passBody H defs rt p mask a).mask =
      (if refersToPssm defs p then 1 <<< H.LT_DIRECTIONAL else mask) := by
  unfold passBody
  simp only
  unfold shadowMapStep refersToPssm
  cases hget : defs[p.mShadowMapIdx]? with
  | none => simp [hget]
  | some d =>
    simp only [hget]
    by_cases htech : d.shadowMapTechnique = ShadowMapTechniques.SHADOWMAP_PSSM
    · simp [htech]
    · by_cases hm : mask = 0
      · simp [htech, hm]
      · simp [htech, hm]


/-- An accumulation leaves the render-queue extent and the log alone. -/
theorem accumulateLightTypes_other (lightIdx mask : Nat) (a : Accum) :
    (accumulateLightTypes lightIdx mask a).mMinRq = a.mMinRq ∧
      (accumulateLightTypes lightIdx mask a).mMaxRq = a.mMaxRq ∧
      (accumulateLightTypes lightIdx mask a).log = a.log := by
  unfold accumulateLightTypes
  split <;> exact ⟨rfl, rfl, rfl⟩

/-- The shadow-map block when the index is out of bounds. -/
theorem shadowMapStep_none (H : Headers) (defs : List ShadowTextureDefinition)
    (rt : IdString) (p : CompositorPassDef) (mask : Nat) (a : Accum)
    (hget : defs[p.mShadowMapIdx]? = none) :
    shadowMapStep H defs rt p mask a =
      { pass := p, mask := mask, acc := a, thrown := none } := by
  unfold shadowMapStep
  rw [hget]

/-- The shadow-map block on a PSSM definition. -/
theorem shadowMapStep_pssm (H : Headers) (defs : List ShadowTextureDefinition)
    (rt : IdString) (p : CompositorPassDef) (mask : Nat) (a : Accum)
    (d : ShadowTextureDefinition) (hget : defs[p.mShadowMapIdx]? = some d)
    (htech : d.shadowMapTechnique = ShadowMapTechniques.SHADOWMAP_PSSM) :
    shadowMapStep H defs rt p mask a =
      { pass := if rt = d.texName ∧ p.mShadowMapFullViewport = false then
          forceViewport H d p else p
        mask := 1 <<< H.LT_DIRECTIONAL
        acc := accumulateLightTypes d.light (1 <<< H.LT_DIRECTIONAL) a
        thrown := none } := by
  unfold shadowMapStep
  rw [hget]
  simp only [htech, if_true]

/-- The shadow-map block on a definition that is not PSSM, target mask zero. -/
theorem shadowMapStep_zero (H : Headers) (defs : List ShadowTextureDefinition)
    (rt : IdString) (p : CompositorPassDef) (a : Accum)
    (d : ShadowTextureDefinition) (hget : defs[p.mShadowMapIdx]? = some d)
    (htech : d.shadowMapTechnique ≠ ShadowMapTechniques.SHADOWMAP_PSSM) :
    shadowMapStep H defs rt p 0 a =
      { pass := if rt = d.texName ∧ p.mShadowMapFullViewport = false then
          forceViewport H d p else p
        mask := 0
        acc := a
        thrown := some ExceptionCodes.ERR_INVALIDPARAMS } := by
  unfold shadowMapStep
  rw [hget]
  simp only [htech, if_true, if_false]

/-- The shadow-map block on a definition that is not PSSM, target mask not zero. -/
theorem shadowMapStep_plain (H : Headers) (defs : List ShadowTextureDefinition)
    (rt : IdString) (p : CompositorPassDef) (mask : Nat) (a : Accum)
    (d : ShadowTextureDefinition) (hget : defs[p.mShadowMapIdx]? = some d)
    (htech : d.shadowMapTechnique ≠ ShadowMapTechniques.SHADOWMAP_PSSM)
    (hmask : mask ≠ 0) :
    shadowMapStep H defs rt p mask a =
      { pass := if rt = d.texName ∧ p.mShadowMapFullViewport = false then
          forceViewport H d p else p
        mask := mask
        acc := accumulateLightTypes d.light mask a
        thrown := none } := by
  unfold shadowMapStep
  rw [hget]
  simp only [htech, hmask, if_false]

/-- The shadow-map block: what it leaves alone, and the viewport it forces. -/
theorem shadowMapStep_facts (H : Headers) (defs : List ShadowTextureDefinition)
    (rt : IdString) (p : CompositorPassDef) (mask : Nat) (a : Accum) :
    (shadowMapStep H defs rt p mask a).acc.mMinRq = a.mMinRq ∧
    (shadowMapStep H defs rt p mask a).acc.mMaxRq = a.mMaxRq ∧
    (shadowMapStep H defs rt p mask a).acc.log = a.log ∧
    (shadowMapStep H defs rt p mask a).pass.scene = p.scene ∧
    (shadowMapStep H defs rt p mask a).pass.mIncludeOverlays = p.mIncludeOverlays ∧
    (∀ d, defs[p.mShadowMapIdx]? = some d → rt = d.texName →
      p.mShadowMapFullViewport = false →
      (shadowMapStep H defs rt p mask a).pass = forceViewport H d p) := by
  cases hget : defs[p.mShadowMapIdx]? with
  | none =>
    rw [shadowMapStep_none H defs rt p mask a hget]
    exact ⟨rfl, rfl, rfl, rfl, rfl, fun d hd => by cases hd⟩
  | some d =>
    have hvp : (if rt = d.texName ∧ p.mShadowMapFullViewport = false then
        forceViewport H d p else p).scene = p.scene ∧
        (if rt = d.texName ∧ p.mShadowMapFullViewport = false then
        forceViewport H d p else p).mIncludeOverlays = p.mIncludeOverlays := by
      split <;> exact ⟨rfl, rfl⟩
    have hforce : ∀ e, some d = some e → rt = e.texName →
        p.mShadowMapFullViewport = false →
        (if rt = d.texName ∧ p.mShadowMapFullViewport = false then
          forceViewport H d p else p) = forceViewport H e p := by
      intro e he hrt hfull
      cases he
      rw [if_pos ⟨hrt, hfull⟩]
    by_cases htech : d.shadowMapTechnique = ShadowMapTechniques.SHADOWMAP_PSSM
    · rw [shadowMapStep_pssm H defs rt p mask a d hget htech]
      obtain ⟨h1, h2, h3⟩ := accumulateLightTypes_other d.light (1 <<< H.LT_DIRECTIONAL) a
      exact ⟨h1, h2, h3, hvp.1, hvp.2, hforce⟩
    · by_cases hm : mask = 0
      · subst hm
        rw [shadowMapStep_zero H defs rt p a d hget htech]
        exact ⟨rfl, rfl, rfl, hvp.1, hvp.2, hforce⟩
      · rw [shadowMapStep_plain H defs rt p mask a d hget htech hm]
        obtain ⟨h1, h2, h3⟩ := accumulateLightTypes_other d.light mask a
        exact ⟨h1, h2, h3, hvp.1, hvp.2, hforce⟩

/-- The scene block: it rewrites the scene part of the pass and the render-queue
extent, and nothing else. -/
theorem sceneStep_facts (H : Headers) (p : CompositorPassDef) (a : Accum) :
    (sceneStep H p a).1 = { p with scene := p.scene.map (finishScene H) } ∧
    (sceneStep H p a).2.log = a.log ∧
    (sceneStep H p a).2.mMinRq =
      (match p.scene with
        | some sc => min a.mMinRq sc.mFirstRQ
        | none => a.mMinRq) ∧
    (sceneStep H p a).2.mMaxRq =
      (match p.scene with
        | some sc => max a.mMaxRq sc.mLastRQ
        | none => a.mMaxRq) := by
  unfold sceneStep
  cases p with
  | mk ov idx full l t w h sl st sw sh em vm scene =>
    cases scene with
    | none => exact ⟨rfl, rfl, rfl, rfl⟩
    | some sc => exact ⟨rfl, rfl, rfl, rfl⟩

/-- One pass that does not raise: overlays off, scene part finished, viewport forced
where the target is the atlas of the referenced definition, render-queue extent
widened, and one warning when overlays were on. -/
theorem passBody_ok (H : Headers) (defs : List ShadowTextureDefinition)
    (rt : IdString) (p : CompositorPassDef) (mask : Nat) (a : Accum)
    (hok : (passBody H defs rt p mask a).thrown = none) :
    (passBody H defs rt p mask a).pass.mIncludeOverlays = false ∧
    (passBody H defs rt p mask a).pass.scene = p.scene.map (finishScene H) ∧
    (passBody H defs rt p mask a).acc.log =
      a.log ++ (if p.mIncludeOverlays = true then [LogMessage.overlaysTurnedOff] else []) ∧
    (passBody H defs rt p mask a).acc.mMinRq =
      (match p.scene with
        | some sc => min a.mMinRq sc.mFirstRQ
        | none => a.mMinRq) ∧
    (passBody H defs rt p mask a).acc.mMaxRq =
      (match p.scene with
        | some sc => max a.mMaxRq sc.mLastRQ
        | none => a.mMaxRq) ∧
    (∀ d, defs[p.mShadowMapIdx]? = some d → rt = d.texName →
      p.mShadowMapFullViewport = false →
      (passBody H defs rt p mask a).pass =
        { forceViewport H d p with
          mIncludeOverlays := false
          scene := p.scene.map (finishScene H) }) := by
  unfold passBody at hok ⊢
  simp only at hok ⊢
  obtain ⟨hmin, hmax, hlog, hscene, hov, hvp⟩ := shadowMapStep_facts H defs rt
    { p with mIncludeOverlays := false } mask
    (if p.mIncludeOverlays = true then
      { a with log := a.log ++ [LogMessage.overlaysTurnedOff] } else a)
  cases hthrown : (shadowMapStep H defs rt { p with mIncludeOverlays := false } mask
    (if p.mIncludeOverlays = true then
      { a with log := a.log ++ [LogMessage.overlaysTurnedOff] } else a)).thrown with
  | some code =>
    rw [hthrown] at hok
    cases hok
  | none =>
    simp only
    obtain ⟨hpass, hlog', hmin', hmax'⟩ := sceneStep_facts H
      (shadowMapStep H defs rt { p with mIncludeOverlays := false } mask
        (if p.mIncludeOverlays = true then
          { a with log := a.log ++ [LogMessage.overlaysTurnedOff] } else a)).pass
      (shadowMapStep H defs rt { p with mIncludeOverlays := false } mask
        (if p.mIncludeOverlays = true then
          { a with log := a.log ++ [LogMessage.overlaysTurnedOff] } else a)).acc
    refine ⟨?_, ?_, ?_, ?_, ?_, ?_⟩
    · rw [hpass]
      exact hov
    · rw [hpass]
      simp only
      rw [hscene]
    · rw [hlog', hlog]
      split <;> simp
    · rw [hmin', hscene, hmin]
      have hsame : (if p.mIncludeOverlays = true then
          { a with log := a.log ++ [LogMessage.overlaysTurnedOff] } else a).mMinRq =
          a.mMinRq := by
        split <;> rfl
      rw [hsame]
    · rw [hmax', hscene, hmax]
      have hsame : (if p.mIncludeOverlays = true then
          { a with log := a.log ++ [LogMessage.overlaysTurnedOff] } else a).mMaxRq =
          a.mMaxRq := by
        split <;> rfl
      rw [hsame]
    · intro d hd hrt hfull
      rw [hpass, hscene, hvp d hd hrt hfull]
      rfl


/-- A run of the loop over passes that does not raise. -/
theorem passLoop_ok (H : Headers) (defs : List ShadowTextureDefinition)
    (rt : IdString) (passes : List CompositorPassDef) (mask : Nat) (a : Accum)
    (hok : (passLoop H defs rt passes mask a).thrown = none) :
    (passLoop H defs rt passes mask a).passes.length = passes.length ∧
    (∀ (k : Nat) (p : CompositorPassDef), passes[k]? = some p → ∃ (m : Nat) (a' : Accum),
      (passBody H defs rt p m a').thrown = none ∧
      (passLoop H defs rt passes mask a).passes[k]? =
        some (passBody H defs rt p m a').pass) ∧
    (passLoop H defs rt passes mask a).mask =
      (if passes.any (refersToPssm defs) then 1 <<< H.LT_DIRECTIONAL else mask) ∧
    (passLoop H defs rt passes mask a).acc.log =
      a.log ++ List.replicate (passes.countP (fun p => p.mIncludeOverlays))
        LogMessage.overlaysTurnedOff ∧
    (passLoop H defs rt passes mask a).acc.mMinRq =
      (passes.filterMap (fun p => p.scene)).foldl (fun m sc => min m sc.mFirstRQ)
        a.mMinRq ∧
    (passLoop H defs rt passes mask a).acc.mMaxRq =
      (passes.filterMap (fun p => p.scene)).foldl (fun m sc => max m sc.mLastRQ)
        a.mMaxRq := by
  induction passes generalizing mask a with
  | nil =>
    refine ⟨rfl, ?_, ?_, ?_, rfl, rfl⟩
    · intro k p hp
      simp at hp
    · simp [passLoop]
    · simp [passLoop]
  | cons q qs ih =>
    unfold passLoop at hok ⊢
    simp only at hok ⊢
    cases hq : (passBody H defs rt q mask a).thrown with
    | some code =>
      rw [hq] at hok
      cases hok
    | none =>
      rw [hq] at hok
      simp only [hq] at hok ⊢
      obtain ⟨_, _, hlog, hmin, hmax, _⟩ := passBody_ok H defs rt q mask a hq
      have hmask := passBody_mask H defs rt q mask a
      obtain ⟨ilen, iget, imask, ilog, imin, imax⟩ := ih _ _ hok
      refine ⟨?_, ?_, ?_, ?_, ?_, ?_⟩
      · simp [ilen]
      · intro k p hp
        cases k with
        | zero =>
          simp only [List.getElem?_cons_zero, Option.some.injEq] at hp
          subst hp
          exact ⟨mask, a, hq, by simp⟩
        | succ k =>
          have hp' : qs[k]? = some p := by simpa using hp
          obtain ⟨m, a', hthrown, hget⟩ := iget k p hp'
          exact ⟨m, a', hthrown, by simpa using hget⟩
      · rw [imask, hmask, List.any_cons]
        by_cases h1 : refersToPssm defs q = true
        · simp [h1]
        · simp [h1]
      · rw [ilog, hlog, List.countP_cons]
        by_cases hov : q.mIncludeOverlays = true
        · simp only [hov, decide_True, if_true, List.append_assoc, List.singleton_append]
          rw [List.replicate_succ]
        · simp [hov]
      · rw [imin, hmin]
        cases hs : q.scene with
        | none => simp [List.filterMap_cons, hs]
        | some sc => simp [List.filterMap_cons, hs]
      · rw [imax, hmax]
        cases hs : q.scene with
        | none => simp [List.filterMap_cons, hs]
        | some sc => simp [List.filterMap_cons, hs]

/-- A run of the loop over targets that does not raise. -/
theorem targetLoop_ok (H : Headers) (defs : List ShadowTextureDefinition)
    (targets : List CompositorTargetDef) (a : Accum)
    (hok : (targetLoop H defs targets a).thrown = none) :
    (targetLoop H defs targets a).targets.length = targets.length ∧
    (∀ (i : Nat) (t : CompositorTargetDef), targets[i]? = some t → ∃ a' : Accum,
      (passLoop H defs t.mRenderTargetName t.mCompositorPasses
        t.mShadowMapSupportedLightTypes a').thrown = none ∧
      (targetLoop H defs targets a).targets[i]? = some
        { t with
          mShadowMapSupportedLightTypes :=
            (passLoop H defs t.mRenderTargetName t.mCompositorPasses
              t.mShadowMapSupportedLightTypes a').mask
          mCompositorPasses :=
            (passLoop H defs t.mRenderTargetName t.mCompositorPasses
              t.mShadowMapSupportedLightTypes a').passes }) ∧
    (targetLoop H defs targets a).acc.log =
      a.log ++ List.replicate (overlayPasses targets) LogMessage.overlaysTurnedOff ∧
    (targetLoop H defs targets a).acc.mMinRq =
      (scenePasses targets).foldl (fun m sc => min m sc.mFirstRQ) a.mMinRq ∧
    (targetLoop H defs targets a).acc.mMaxRq =
      (scenePasses targets).foldl (fun m sc => max m sc.mLastRQ) a.mMaxRq := by
  induction targets generalizing a with
  | nil =>
    refine ⟨rfl, ?_, ?_, rfl, rfl⟩
    · intro i t ht
      simp at ht
    · simp [targetLoop, overlayPasses]
  | cons u us ih =>
    unfold targetLoop at hok ⊢
    simp only at hok ⊢
    cases hu : (passLoop H defs u.mRenderTargetName u.mCompositorPasses
        u.mShadowMapSupportedLightTypes a).thrown with
    | some code =>
      rw [hu] at hok
      cases hok
    | none =>
      rw [hu] at hok
      simp only [hu] at hok ⊢
      obtain ⟨_, _, _, hlog, hmin, hmax⟩ := passLoop_ok H defs _ _ _ a hu
      obtain ⟨ilen, iget, ilog, imin, imax⟩ := ih _ hok
      refine ⟨?_, ?_, ?_, ?_, ?_⟩
      · simp [ilen]
      · intro i t ht
        cases i with
        | zero =>
          simp only [List.getElem?_cons_zero, Option.some.injEq] at ht
          subst ht
          exact ⟨a, hu, by simp⟩
        | succ i =>
          have ht' : us[i]? = some t := by simpa using ht
          obtain ⟨a', hthrown, hget⟩ := iget i t ht'
          exact ⟨a', hthrown, by simpa using hget⟩
      · rw [ilog, hlog, overlayPasses, List.append_assoc, ← List.replicate_add]
      · rw [imin, hmin, scenePasses, List.foldl_append]
      · rw [imax, hmax, scenePasses, List.foldl_append]

/-- `AgreeOutsideLinks` is reflexive. -/
theorem agreeOutsideLinks_refl (x : ShadowTextureDefinition) : AgreeOutsideLinks x x := by
  cases x
  rfl

/-- `AgreeOutsideLinks` is transitive. -/
theorem agreeOutsideLinks_trans {x y z : ShadowTextureDefinition}
    (h1 : AgreeOutsideLinks x y) (h2 : AgreeOutsideLinks y z) : AgreeOutsideLinks x z := by
  unfold AgreeOutsideLinks at *
  cases x; cases y; cases z
  simp only [ShadowTextureDefinition.mk.injEq] at h1 h2 ⊢
  obtain ⟨a1, a2, a3, a4, a5, a6, a7, _, a9, a10, _⟩ := h1
  obtain ⟨b1, b2, b3, b4, b5, b6, b7, _, b9, b10, _⟩ := h2
  exact ⟨a1.trans b1, a2.trans b2, a3.trans b3, a4.trans b4, a5.trans b5, a6.trans b6,
    a7.trans b7, trivial, a9.trans b9, a10.trans b10, trivial⟩

/-- Lists related by `AgreeOutsideLinks` position by position compose. -/
theorem forall₂_agree_trans {l1 l2 l3 : List ShadowTextureDefinition}
    (h1 : List.Forall₂ AgreeOutsideLinks l1 l2)
    (h2 : List.Forall₂ AgreeOutsideLinks l2 l3) : List.Forall₂ AgreeOutsideLinks l1 l3 := by
  induction h1 generalizing l3 with
  | nil =>
    cases h2
    exact List.Forall₂.nil
  | cons hxy _ ih =>
    cases h2 with
    | cons hyz htail => exact List.Forall₂.cons (agreeOutsideLinks_trans hxy hyz) (ih htail)

/-- The split limit: the result has at most five splits, five when there were more,
and nothing else is rewritten. -/
theorem limitSplits_facts (d : ShadowTextureDefinition) (log : List LogMessage) :
    AgreeOutsideLinks (limitSplits d log).1 d ∧
      (limitSplits d log).1.numSplits ≤ 5 ∧
      (5 < d.numSplits → (limitSplits d log).1.numSplits = 5) ∧
      (limitSplits d log).2.count LogMessage.overlaysTurnedOff =
        log.count LogMessage.overlaysTurnedOff := by
  unfold limitSplits
  by_cases h : d.numSplits > 5
  · rw [if_pos h]
    refine ⟨?_, Nat.le_refl 5, fun _ => rfl, ?_⟩
    · cases d
      rfl
    · simp
  · rw [if_neg h]
    exact ⟨agreeOutsideLinks_refl d, Nat.le_of_not_gt h, fun h' => absurd h' h, rfl⟩

/-- The sharing scan: it only rewrites `numSplits` and the link, logs no overlay
warning, and a rewritten `numSplits` is that of an earlier definition with the same
light and another split. -/
theorem shareScan_facts (bs : List ShadowTextureDefinition) (idx : Nat)
    (d : ShadowTextureDefinition) (log : List LogMessage) :
    AgreeOutsideLinks (shareScan bs idx d log).1 d ∧
      (shareScan bs idx d log).2.count LogMessage.overlaysTurnedOff =
        log.count LogMessage.overlaysTurnedOff ∧
      ((shareScan bs idx d log).1.numSplits = d.numSplits ∨
        ∃ (k : Nat) (b : ShadowTextureDefinition), bs[k]? = some b ∧ b.light = d.light ∧
          b.split ≠ d.split ∧ (shareScan bs idx d log).1.numSplits = b.numSplits) := by
  induction bs generalizing idx log with
  | nil => exact ⟨agreeOutsideLinks_refl d, rfl, Or.inl rfl⟩
  | cons b bs ih =>
    have lift : ∀ (idx' : Nat) (log' : List LogMessage),
        ((shareScan bs idx' d log').1.numSplits = d.numSplits ∨
          ∃ (k : Nat) (c : ShadowTextureDefinition), bs[k]? = some c ∧ c.light = d.light ∧
            c.split ≠ d.split ∧ (shareScan bs idx' d log').1.numSplits = c.numSplits) →
        ((shareScan bs idx' d log').1.numSplits = d.numSplits ∨
          ∃ (k : Nat) (c : ShadowTextureDefinition), (b :: bs)[k]? = some c ∧
            c.light = d.light ∧ c.split ≠ d.split ∧
            (shareScan bs idx' d log').1.numSplits = c.numSplits) := by
      intro idx' log' h
      rcases h with h | ⟨k, c, hc, h1, h2, h3⟩
      · exact Or.inl h
      · exact Or.inr ⟨k + 1, c, by simpa using hc, h1, h2, h3⟩
    unfold shareScan
    by_cases hl : b.light = d.light
    · by_cases hs : b.split = d.split
      · rw [if_pos hl, if_pos hs]
        obtain ⟨h1, h2, h3⟩ := ih (idx + 1) (log ++ [LogMessage.sameLightAndSplit])
        refine ⟨h1, ?_, lift _ _ h3⟩
        rw [h2]
        simp
      · rw [if_pos hl, if_neg hs, if_pos hs]
        by_cases hn : b.numSplits ≠ d.numSplits
        · rw [if_pos hn]
          refine ⟨?_, ?_, Or.inr ⟨0, b, by simp, hl, hs, rfl⟩⟩
          · cases d
            rfl
          · simp
        · rw [if_neg hn]
          refine ⟨?_, rfl, Or.inl rfl⟩
          cases d
          rfl
    · by_cases ht : b.shadowMapTechnique = d.shadowMapTechnique
      · rw [if_neg hl, if_pos ht]
        refine ⟨?_, rfl, Or.inl rfl⟩
        cases d
        rfl
      · rw [if_neg hl, if_neg ht]
        obtain ⟨h1, h2, h3⟩ := ih (idx + 1) log
        exact ⟨h1, h2, lift _ _ h3⟩

/-- Whatever the outcome, the loop over definitions keeps the number of definitions
and every member of them except `numSplits` and the link, and logs no overlay
warning. -/
theorem defLoop_agree (done rest : List ShadowTextureDefinition) (log : List LogMessage) :
    List.Forall₂ AgreeOutsideLinks (defLoop done rest log).defs (done ++ rest) ∧
      (defLoop done rest log).log.count LogMessage.overlaysTurnedOff =
        log.count LogMessage.overlaysTurnedOff := by
  induction rest generalizing done log with
  | nil =>
    unfold defLoop
    rw [List.append_nil]
    exact ⟨List.forall₂_same.mpr (fun x _ => agreeOutsideLinks_refl x), rfl⟩
  | cons d rest ih =>
    unfold defLoop
    by_cases hd : d.split ≠ 0 ∧ d.shadowMapTechnique ≠ ShadowMapTechniques.SHADOWMAP_PSSM
    · rw [if_pos hd]
      exact ⟨List.forall₂_same.mpr (fun x _ => agreeOutsideLinks_refl x), rfl⟩
    · rw [if_neg hd]
      simp only
      obtain ⟨h1, h2⟩ := ih (done ++ [(shareScan done 0 (limitSplits d log).1
        (limitSplits d log).2).1]) (shareScan done 0 (limitSplits d log).1
        (limitSplits d log).2).2
      obtain ⟨l1, _, _, l4⟩ := limitSplits_facts d log
      obtain ⟨s1, s2, _⟩ := shareScan_facts done 0 (limitSplits d log).1 (limitSplits d log).2
      refine ⟨?_, ?_⟩
      · have hstep : List.Forall₂ AgreeOutsideLinks
            ((done ++ [(shareScan done 0 (limitSplits d log).1 (limitSplits d log).2).1]) ++
              rest) (done ++ d :: rest) := by
          rw [List.append_assoc]
          apply List.rel_append (List.forall₂_same.mpr (fun x _ => agreeOutsideLinks_refl x))
          exact List.Forall₂.cons (agreeOutsideLinks_trans s1 l1)
            (List.forall₂_same.mpr (fun x _ => agreeOutsideLinks_refl x))
        exact forall₂_agree_trans h1 hstep
      · rw [h2, s2, l4]

/-- After a run of the loop over definitions that does not raise, no definition has
more than five splits, provided the ones handled before had none. -/
theorem defLoop_limit (done rest : List ShadowTextureDefinition) (log : List LogMessage)
    (hdone : ∀ x ∈ done, x.numSplits ≤ 5)
    (hok : (defLoop done rest log).thrown = none) :
    ∀ x ∈ (defLoop done rest log).defs, x.numSplits ≤ 5 := by
  induction rest generalizing done log with
  | nil =>
    unfold defLoop
    exact hdone
  | cons d rest ih =>
    unfold defLoop at hok ⊢
    by_cases hd : d.split ≠ 0 ∧ d.shadowMapTechnique ≠ ShadowMapTechniques.SHADOWMAP_PSSM
    · rw [if_pos hd] at hok
      cases hok
    · rw [if_neg hd] at hok ⊢
      simp only at hok ⊢
      apply ih _ _ _ hok
      intro x hx
      rcases List.mem_append.mp hx with hx | hx
      · exact hdone x hx
      · rw [List.mem_singleton] at hx
        subst hx
        obtain ⟨_, l2, _, _⟩ := limitSplits_facts d log
        obtain ⟨_, _, s3⟩ := shareScan_facts done 0 (limitSplits d log).1
          (limitSplits d log).2
        rcases s3 with h | ⟨k, b, hb, _, _, h⟩
        · rw [h]
          exact l2
        · rw [h]
          exact hdone b (List.getElem?_mem hb)

/-! ## Targets, passes, limits, failure and index safety -/

/-- The node-level results of a successful `_validateAndFinish`. -/
theorem validateAndFinish_ok_node (H : Headers) (s : CompositorShadowNodeDef)
    (hok : (_validateAndFinish H s).thrown = none) :
    (_validateAndFinish H s).node.mMinRq =
      (targetLoop H s.mShadowMapTexDefinitions s.mTargetPasses (initialAccum s)).acc.mMinRq ∧
    (_validateAndFinish H s).node.mMaxRq =
      (targetLoop H s.mShadowMapTexDefinitions s.mTargetPasses (initialAccum s)).acc.mMaxRq ∧
    (_validateAndFinish H s).log =
      (defLoop [] s.mShadowMapTexDefinitions
        (targetLoop H s.mShadowMapTexDefinitions s.mTargetPasses
          (initialAccum s)).acc.log).log := by
  unfold _validateAndFinish at hok ⊢
  simp only at hok ⊢
  cases hta : (targetLoop H s.mShadowMapTexDefinitions s.mTargetPasses
      (initialAccum s)).thrown with
  | some code =>
    rw [hta] at hok
    cases hok
  | none => exact ⟨rfl, rfl, rfl⟩

/-- After a successful `_validateAndFinish`, the pass at position `k` of the target
at position `i` is the result of one `passBody` that did not raise, and the target
holds the mask its loop over passes ended with. -/
theorem finished_pass_get (H : Headers) (s : CompositorShadowNodeDef)
    (hok : (_validateAndFinish H s).thrown = none) (i : Nat) (t : CompositorTargetDef)
    (ht : s.mTargetPasses[i]? = some t) :
    ∃ t' : CompositorTargetDef, (_validateAndFinish H s).node.mTargetPasses[i]? = some t' ∧
      t'.mRenderTargetName = t.mRenderTargetName ∧
      t'.mShadowMapSupportedLightTypes =
        (if t.mCompositorPasses.any (refersToPssm s.mShadowMapTexDefinitions) then
          1 <<< H.LT_DIRECTIONAL else t.mShadowMapSupportedLightTypes) ∧
      t'.mCompositorPasses.length = t.mCompositorPasses.length ∧
      ∀ (k : Nat) (p : CompositorPassDef), t.mCompositorPasses[k]? = some p →
        ∃ (m : Nat) (a' : Accum),
          (passBody H s.mShadowMapTexDefinitions t.mRenderTargetName p m a').thrown = none ∧
          t'.mCompositorPasses[k]? =
            some (passBody H s.mShadowMapTexDefinitions t.mRenderTargetName p m a').pass := by
  obtain ⟨hta, _, _, _, htargets⟩ := validateAndFinish_ok H s hok
  obtain ⟨_, hget, _, _, _⟩ := targetLoop_ok H _ _ _ hta
  obtain ⟨a', hpl, hti⟩ := hget i t ht
  obtain ⟨plen, pget, pmask, _, _, _⟩ := passLoop_ok H _ _ _ _ _ hpl
  rw [htargets]
  exact ⟨_, hti, rfl, pmask, plen, pget⟩

/-- Every pass found in the node after a successful `_validateAndFinish` sits at the
position of a pass the node had before. -/
theorem finished_pass_mem (H : Headers) (s : CompositorShadowNodeDef)
    (hok : (_validateAndFinish H s).thrown = none) (t' : CompositorTargetDef)
    (ht' : t' ∈ (_validateAndFinish H s).node.mTargetPasses) (p' : CompositorPassDef)
    (hp' : p' ∈ t'.mCompositorPasses) :
    ∃ (t : CompositorTargetDef) (p : CompositorPassDef) (m : Nat) (a' : Accum),
      t ∈ s.mTargetPasses ∧ p ∈ t.mCompositorPasses ∧
      (passBody H s.mShadowMapTexDefinitions t.mRenderTargetName p m a').thrown = none ∧
      p' = (passBody H s.mShadowMapTexDefinitions t.mRenderTargetName p m a').pass := by
  obtain ⟨hta, _, _, _, htargets⟩ := validateAndFinish_ok H s hok
  obtain ⟨tlen, _, _, _, _⟩ := targetLoop_ok H _ _ _ hta
  obtain ⟨i, hi⟩ := List.getElem?_of_mem ht'
  have hilt : i < s.mTargetPasses.length := by
    rw [htargets] at hi
    rw [← tlen]
    exact (List.getElem?_eq_some.mp hi).1
  obtain ⟨t1, ht1, _, _, hlen, hpass⟩ := finished_pass_get H s hok i s.mTargetPasses[i]
    (List.getElem?_eq_getElem hilt)
  rw [hi] at ht1
  cases ht1
  obtain ⟨k, hk⟩ := List.getElem?_of_mem hp'
  have hklt : k < (s.mTargetPasses[i]).mCompositorPasses.length := by
    rw [← hlen]
    exact (List.getElem?_eq_some.mp hk).1
  obtain ⟨m, a', hthrown, hget⟩ := hpass k _ (List.getElem?_eq_getElem hklt)
  rw [hk] at hget
  cases hget
  exact ⟨s.mTargetPasses[i], (s.mTargetPasses[i]).mCompositorPasses[k], m, a',
    List.getElem_mem _, List.getElem_mem _, hthrown, rfl⟩

/-- **C11.** After a successful `_validateAndFinish`, a target with at least one pass
whose shadow-map index is in bounds and refers to a PSSM definition has the mask
`1 << LT_DIRECTIONAL`, whatever its mask was before. -/
theorem pssm_target_directional_only (H : Headers) (s : CompositorShadowNodeDef)
    (hok : (_validateAndFinish H s).thrown = none) (i : Nat) (t : CompositorTargetDef)
    (ht : s.mTargetPasses[i]? = some t) (p : CompositorPassDef)
    (hp : p ∈ t.mCompositorPasses) (d : ShadowTextureDefinition)
    (hd : s.mShadowMapTexDefinitions[p.mShadowMapIdx]? = some d)
    (htech : d.shadowMapTechnique = ShadowMapTechniques.SHADOWMAP_PSSM) :
    ∃ t' : CompositorTargetDef, (_validateAndFinish H s).node.mTargetPasses[i]? = some t' ∧
      t'.mShadowMapSupportedLightTypes = 1 <<< H.LT_DIRECTIONAL := by
  obtain ⟨t', ht', _, hmask, _, _⟩ := finished_pass_get H s hok i t ht
  refine ⟨t', ht', ?_⟩
  have hany : t.mCompositorPasses.any (refersToPssm s.mShadowMapTexDefinitions) = true := by
    rw [List.any_eq_true]
    refine ⟨p, hp, ?_⟩
    unfold refersToPssm
    rw [hd]
    exact decide_eq_true htech
  rw [hmask, if_pos hany]

/-- C11 on `atlasTargetNode`, whose target came with mask zero. -/
theorem pssm_target_directional_only_witness :
    (_validateAndFinish sampleHeaders atlasTargetNode).thrown = none ∧
      ∃ t' : CompositorTargetDef,
        (_validateAndFinish sampleHeaders atlasTargetNode).node.mTargetPasses[0]? = some t' ∧
        t'.mShadowMapSupportedLightTypes = 1 <<< sampleHeaders.LT_DIRECTIONAL :=
  ⟨by decide,
    pssm_target_directional_only sampleHeaders atlasTargetNode (by decide) 0
      { mRenderTargetName := ⟨5⟩
        mShadowMapSupportedLightTypes := 0
        mCompositorPasses := [{ samplePass 0 with mIncludeOverlays := true }, samplePass 1] }
      rfl (samplePass 1) (by decide)
      (ShadowTextureDefinition.construct sampleHeaders ShadowMapTechniques.SHADOWMAP_PSSM
        "atlas".toList 0 ⟨6, 3⟩ ⟨4, 5⟩ 0 0 1)
      rfl rfl⟩

/-- **C12.** After a successful `_validateAndFinish`, a pass whose shadow-map index
`i` is in bounds, which is not marked full-viewport and whose target is named like
the texture of `definitions[i]`, has the viewport `uvOffset`, `uvLength` of that
definition (converted to `float`) and a scissor rectangle equal to its viewport. -/
theorem atlas_pass_viewport (H : Headers) (s : CompositorShadowNodeDef)
    (hok : (_validateAndFinish H s).thrown = none) (i : Nat) (t : CompositorTargetDef)
    (ht : s.mTargetPasses[i]? = some t) (k : Nat) (p : CompositorPassDef)
    (hp : t.mCompositorPasses[k]? = some p) (d : ShadowTextureDefinition)
    (hd : s.mShadowMapTexDefinitions[p.mShadowMapIdx]? = some d)
    (hfull : p.mShadowMapFullViewport = false)
    (hname : t.mRenderTargetName = d.texName) :
    ∃ (t' : CompositorTargetDef) (p' : CompositorPassDef),
      (_validateAndFinish H s).node.mTargetPasses[i]? = some t' ∧
      t'.mCompositorPasses[k]? = some p' ∧
      p'.mVpLeft = H.castFloat d.uvOffset.x ∧ p'.mVpTop = H.castFloat d.uvOffset.y ∧
      p'.mVpWidth = H.castFloat d.uvLength.x ∧ p'.mVpHeight = H.castFloat d.uvLength.y ∧
      p'.mVpScissorLeft = p'.mVpLeft ∧ p'.mVpScissorTop = p'.mVpTop ∧
      p'.mVpScissorWidth = p'.mVpWidth ∧ p'.mVpScissorHeight = p'.mVpHeight ∧
      ((∀ v, H.castFloat v = v) →
        p'.mVpLeft = d.uvOffset.x ∧ p'.mVpTop = d.uvOffset.y ∧
        p'.mVpWidth = d.uvLength.x ∧ p'.mVpHeight = d.uvLength.y) := by
  obtain ⟨t', ht', _, _, _, hpass⟩ := finished_pass_get H s hok i t ht
  obtain ⟨m, a', hthrown, hget⟩ := hpass k p hp
  obtain ⟨_, _, _, _, _, hvp⟩ := passBody_ok H _ _ p m a' hthrown
  have hform := hvp d hd hname hfull
  refine ⟨t', _, ht', hget, ?_⟩
  rw [hform]
  refine ⟨rfl, rfl, rfl, rfl, rfl, rfl, rfl, rfl, ?_⟩
  intro hcast
  exact ⟨hcast _, hcast _, hcast _, hcast _⟩

/-- C12 on the second pass of `atlasTargetNode`. -/
theorem atlas_pass_viewport_witness :
    ∃ (t' : CompositorTargetDef) (p' : CompositorPassDef),
      (_validateAndFinish sampleHeaders atlasTargetNode).node.mTargetPasses[0]? = some t' ∧
      t'.mCompositorPasses[1]? = some p' ∧
      p'.mVpLeft = 6 ∧ p'.mVpTop = 3 ∧ p'.mVpWidth = 4 ∧ p'.mVpHeight = 5 ∧
      p'.mVpScissorLeft = p'.mVpLeft ∧ p'.mVpScissorTop = p'.mVpTop ∧
      p'.mVpScissorWidth = p'.mVpWidth ∧ p'.mVpScissorHeight = p'.mVpHeight := by
  obtain ⟨t', p', h1, h2, h3, h4, h5, h6, h7, h8, h9, h10, _⟩ :=
    atlas_pass_viewport sampleHeaders atlasTargetNode (by decide) 0
      { mRenderTargetName := ⟨5⟩
        mShadowMapSupportedLightTypes := 0
        mCompositorPasses := [{ samplePass 0 with mIncludeOverlays := true }, samplePass 1] }
      rfl 1 (samplePass 1) rfl
      (ShadowTextureDefinition.construct sampleHeaders ShadowMapTechniques.SHADOWMAP_PSSM
        "atlas".toList 0 ⟨6, 3⟩ ⟨4, 5⟩ 0 0 1)
      rfl rfl rfl
  exact ⟨t', p', h1, h2, h3, h4, h5, h6, h7, h8, h9, h10⟩
/-- Entries of a list related by `AgreeOutsideLinks` position by position. -/
theorem forall₂_agree_get {l1 l2 : List ShadowTextureDefinition}
    (h : List.Forall₂ AgreeOutsideLinks l1 l2) (i : Nat) (x y : ShadowTextureDefinition)
    (hx : l1[i]? = some x) (hy : l2[i]? = some y) : AgreeOutsideLinks x y := by
  induction h generalizing i with
  | nil => simp at hx
  | cons hab _ ih =>
    cases i with
    | zero =>
      simp only [List.getElem?_cons_zero, Option.some.injEq] at hx hy
      subst hx; subst hy
      exact hab
    | succ i => exact ih i (by simpa using hx) (by simpa using hy)

/-- `AgreeOutsideLinks` keeps light and split. -/
theorem agreeOutsideLinks_key {x y : ShadowTextureDefinition} (h : AgreeOutsideLinks x y) :
    x.light = y.light ∧ x.split = y.split := by
  unfold AgreeOutsideLinks at h
  cases x; cases y
  simp only [ShadowTextureDefinition.mk.injEq] at h
  exact ⟨h.2.2.2.2.1, h.2.2.2.2.2.1⟩

/-- **C13 (as stated, refuted).** On `overLimitNode` finalisation succeeds; the
second definition asked for seven splits and ends with three, not five. -/
theorem numSplits_over_limit_not_five :
    (_validateAndFinish sampleHeaders overLimitNode).thrown = none ∧
      overLimitNode.mShadowMapTexDefinitions.map (fun d => d.numSplits) = [3, 7] ∧
      (_validateAndFinish sampleHeaders overLimitNode).node.mShadowMapTexDefinitions.map
        (fun d => d.numSplits) = [3, 3] := by
  decide

/-- **C13 (amended).** After a successful `_validateAndFinish`, a definition that had
more than five splits has at most five; it has exactly five unless its `numSplits`
was overwritten with that of an earlier definition of the same light and another
split, and in particular it has five when no such earlier definition exists. -/
theorem numSplits_over_limit (H : Headers) (s : CompositorShadowNodeDef)
    (hok : (_validateAndFinish H s).thrown = none) (i : Nat) (a : ShadowTextureDefinition)
    (ha : s.mShadowMapTexDefinitions[i]? = some a) (hover : 5 < a.numSplits) :
    ∃ a' : ShadowTextureDefinition,
      (_validateAndFinish H s).node.mShadowMapTexDefinitions[i]? = some a' ∧
      a'.numSplits ≤ 5 ∧
      (a'.numSplits = 5 ∨
        ∃ (j : Nat) (b b' : ShadowTextureDefinition), j < i ∧
          s.mShadowMapTexDefinitions[j]? = some b ∧
          (_validateAndFinish H s).node.mShadowMapTexDefinitions[j]? = some b' ∧
          b.light = a.light ∧ b.split ≠ a.split ∧ a'.numSplits = b'.numSplits) ∧
      ((∀ (j : Nat) (b : ShadowTextureDefinition), j < i →
          s.mShadowMapTexDefinitions[j]? = some b → ¬ (b.light = a.light ∧ b.split ≠ a.split)) →
        a'.numSplits = 5) := by
  obtain ⟨_, hdefs, hnode, _, _⟩ := validateAndFinish_ok H s hok
  obtain ⟨hlen, hres⟩ := defLoop_resolved _ _ hdefs
  obtain ⟨a', log1, log2, hget, _, hval⟩ := hres i a ha
  obtain ⟨_, l2, l3, _⟩ := limitSplits_facts a log1
  have hkeyA := (limitSplits_sameKey a log1).1
  have hfive : (limitSplits a log1).1.numSplits = 5 := l3 hover
  obtain ⟨_, _, s3⟩ := shareScan_facts
    ((defLoop [] s.mShadowMapTexDefinitions
      (targetLoop H s.mShadowMapTexDefinitions s.mTargetPasses
        (initialAccum s)).acc.log).defs.take i) 0 (limitSplits a log1).1 log2
  have hlimit := defLoop_limit [] s.mShadowMapTexDefinitions _
    (fun x hx => by cases hx) hdefs
  rw [← hval] at s3
  -- an earlier rewritten definition and its original
  have hearlier : ∀ (k : Nat) (c' : ShadowTextureDefinition),
      ((defLoop [] s.mShadowMapTexDefinitions
        (targetLoop H s.mShadowMapTexDefinitions s.mTargetPasses
          (initialAccum s)).acc.log).defs.take i)[k]? = some c' →
      k < i ∧ (defLoop [] s.mShadowMapTexDefinitions
        (targetLoop H s.mShadowMapTexDefinitions s.mTargetPasses
          (initialAccum s)).acc.log).defs[k]? = some c' ∧
        ∃ c : ShadowTextureDefinition, s.mShadowMapTexDefinitions[k]? = some c ∧
          SameKey c' c := by
    intro k c' hc'
    rw [List.getElem?_take] at hc'
    split at hc'
    · rename_i hk
      have hklt : k < s.mShadowMapTexDefinitions.length :=
        Nat.lt_trans hk (List.getElem?_eq_some.mp ha).1
      obtain ⟨c'', _, _, hget'', hkey, _⟩ := hres k _ (List.getElem?_eq_getElem hklt)
      rw [hget''] at hc'
      cases hc'
      exact ⟨hk, hget'', _, List.getElem?_eq_getElem hklt, hkey⟩
    · cases hc'
  rw [hnode]
  refine ⟨a', hget, hlimit a' (List.getElem?_mem hget), ?_, ?_⟩
  · rcases s3 with h | ⟨k, c', hc', hl, hs, hn⟩
    · left
      rw [h, hfive]
    · right
      obtain ⟨hk, hafter, c, hc, hkey⟩ := hearlier k c' hc'
      refine ⟨k, c, c', hk, hc, hafter, ?_, ?_, hn⟩
      · rw [← hkey.1, hl, hkeyA.1]
      · rw [← hkey.2.1, hkeyA.2.1.symm]
        exact hs
  · intro hnone
    rcases s3 with h | ⟨k, c', hc', hl, hs, _⟩
    · rw [h, hfive]
    · obtain ⟨hk, _, c, hc, hkey⟩ := hearlier k c' hc'
      exfalso
      apply hnone k c hk hc
      refine ⟨?_, ?_⟩
      · rw [← hkey.1, hl, hkeyA.1]
      · rw [← hkey.2.1, hkeyA.2.1.symm]
        exact hs

/-- Amended C13 on the second definition of `overLimitNode`, which asked for seven
splits. -/
theorem numSplits_over_limit_witness :
    ∃ a' : ShadowTextureDefinition,
      (_validateAndFinish sampleHeaders overLimitNode).node.mShadowMapTexDefinitions[1]? =
        some a' ∧ a'.numSplits ≤ 5 := by
  obtain ⟨a', h1, h2, _⟩ := numSplits_over_limit sampleHeaders overLimitNode (by decide) 1
    { ShadowTextureDefinition.construct sampleHeaders ShadowMapTechniques.SHADOWMAP_PSSM
        "atlas".toList 0 ⟨1, 0⟩ ⟨1, 1⟩ 0 0 1 with numSplits := 7 }
    rfl (by decide)
  exact ⟨a', h1, h2⟩

/-- **C19.** After a successful `_validateAndFinish` (built without
`OGRE_REMOVE_PSSM_SPLIT_LIMIT`) every definition has at most five splits, also where
`numSplits` was overwritten with the value of an earlier definition. -/
theorem numSplits_at_most_five (H : Headers) (s : CompositorShadowNodeDef)
    (hok : (_validateAndFinish H s).thrown = none) (d : ShadowTextureDefinition)
    (hd : d ∈ (_validateAndFinish H s).node.mShadowMapTexDefinitions) :
    d.numSplits ≤ 5 := by
  obtain ⟨_, hdefs, hnode, _, _⟩ := validateAndFinish_ok H s hok
  rw [hnode] at hd
  exact defLoop_limit [] _ _ (fun x hx => by cases hx) hdefs d hd

/-- C19 on `overLimitNode`, where the second definition asked for seven splits. -/
theorem numSplits_at_most_five_witness :
    (_validateAndFinish sampleHeaders overLimitNode).thrown = none ∧
      ∀ d ∈ (_validateAndFinish sampleHeaders overLimitNode).node.mShadowMapTexDefinitions,
        d.numSplits ≤ 5 :=
  ⟨by decide,
    fun d hd => numSplits_at_most_five sampleHeaders overLimitNode (by decide) d hd⟩

/-- **C18.** `postInitializePassDef` is a total function that sets `mExecutionMask`
to `0xFF` and `mViewportModifierMask` to `0x00`, leaves every other member of the
pass as it was, and gives the same pass when applied twice. -/
theorem postInitializePassDef_masks (passDef : CompositorPassDef) :
    (postInitializePassDef passDef).mExecutionMask = 0xFF ∧
      (postInitializePassDef passDef).mViewportModifierMask = 0x00 ∧
      { postInitializePassDef passDef with
        mExecutionMask := passDef.mExecutionMask
        mViewportModifierMask := passDef.mViewportModifierMask } = passDef ∧
      postInitializePassDef (postInitializePassDef passDef) =
        postInitializePassDef passDef := by
  cases passDef
  exact ⟨rfl, rfl, rfl, rfl⟩

/-- **C14.** After a successful `_validateAndFinish`, every pass of every target has
`mIncludeOverlays = false`; the targets and their passes are as many as before; and
the overlay warning was logged once for each pass that had overlays enabled. -/
theorem overlays_turned_off (H : Headers) (s : CompositorShadowNodeDef)
    (hok : (_validateAndFinish H s).thrown = none) :
    (∀ t' ∈ (_validateAndFinish H s).node.mTargetPasses,
      ∀ p' ∈ t'.mCompositorPasses, p'.mIncludeOverlays = false) ∧
    (_validateAndFinish H s).node.mTargetPasses.length = s.mTargetPasses.length ∧
    (∀ (i : Nat) (t : CompositorTargetDef), s.mTargetPasses[i]? = some t →
      ∃ t' : CompositorTargetDef,
        (_validateAndFinish H s).node.mTargetPasses[i]? = some t' ∧
        t'.mCompositorPasses.length = t.mCompositorPasses.length) ∧
    (_validateAndFinish H s).log.count LogMessage.overlaysTurnedOff =
      overlayPasses s.mTargetPasses := by
  obtain ⟨hta, _, _, _, htargets⟩ := validateAndFinish_ok H s hok
  obtain ⟨_, _, hlog⟩ := validateAndFinish_ok_node H s hok
  obtain ⟨tlen, _, tlog, _, _⟩ := targetLoop_ok H _ _ _ hta
  refine ⟨?_, ?_, ?_, ?_⟩
  · intro t' ht' p' hp'
    obtain ⟨t, p, m, a', _, _, hthrown, hp⟩ := finished_pass_mem H s hok t' ht' p' hp'
    rw [hp]
    exact (passBody_ok H _ _ p m a' hthrown).1
  · rw [htargets]
    exact tlen
  · intro i t ht
    obtain ⟨t', ht', _, _, hlen, _⟩ := finished_pass_get H s hok i t ht
    exact ⟨t', ht', hlen⟩
  · rw [hlog, (defLoop_agree [] _ _).2, tlog]
    simp [initialAccum]

/-- C14 on `atlasTargetNode`: two passes, one of them with overlays on. -/
theorem overlays_turned_off_witness :
    overlayPasses atlasTargetNode.mTargetPasses = 1 ∧
      (_validateAndFinish sampleHeaders atlasTargetNode).log.count
        LogMessage.overlaysTurnedOff = 1 ∧
      ∀ t' ∈ (_validateAndFinish sampleHeaders atlasTargetNode).node.mTargetPasses,
        ∀ p' ∈ t'.mCompositorPasses, p'.mIncludeOverlays = false :=
  ⟨by decide, by decide,
    (overlays_turned_off sampleHeaders atlasTargetNode (by decide)).1⟩

/-- Minimum accumulated over a list: a lower bound that is attained. -/
theorem foldl_min_spec (l : List CompositorPassSceneDef) (m0 : Nat) :
    l.foldl (fun m sc => min m sc.mFirstRQ) m0 ≤ m0 ∧
      (∀ sc ∈ l, l.foldl (fun m sc => min m sc.mFirstRQ) m0 ≤ sc.mFirstRQ) ∧
      (l.foldl (fun m sc => min m sc.mFirstRQ) m0 = m0 ∨
        ∃ sc ∈ l, l.foldl (fun m sc => min m sc.mFirstRQ) m0 = sc.mFirstRQ) := by
  induction l generalizing m0 with
  | nil => exact ⟨Nat.le_refl _, fun sc h => absurd h (List.not_mem_nil sc), Or.inl rfl⟩
  | cons x xs ih =>
    simp only [List.foldl_cons]
    obtain ⟨h1, h2, h3⟩ := ih (min m0 x.mFirstRQ)
    refine ⟨Nat.le_trans h1 (Nat.min_le_left _ _), ?_, ?_⟩
    · intro sc hsc
      rcases List.mem_cons.mp hsc with rfl | hsc
      · exact Nat.le_trans h1 (Nat.min_le_right _ _)
      · exact h2 sc hsc
    · rcases h3 with h | ⟨sc, hsc, h⟩
      · rcases Nat.le_total m0 x.mFirstRQ with hle | hle
        · left
          rw [h]
          exact Nat.min_eq_left hle
        · right
          exact ⟨x, List.mem_cons_self x xs, by rw [h]; exact Nat.min_eq_right hle⟩
      · exact Or.inr ⟨sc, List.mem_cons_of_mem x hsc, h⟩

/-- Maximum accumulated over a list: an upper bound that is attained. -/
theorem foldl_max_spec (l : List CompositorPassSceneDef) (m0 : Nat) :
    m0 ≤ l.foldl (fun m sc => max m sc.mLastRQ) m0 ∧
      (∀ sc ∈ l, sc.mLastRQ ≤ l.foldl (fun m sc => max m sc.mLastRQ) m0) ∧
      (l.foldl (fun m sc => max m sc.mLastRQ) m0 = m0 ∨
        ∃ sc ∈ l, l.foldl (fun m sc => max m sc.mLastRQ) m0 = sc.mLastRQ) := by
  induction l generalizing m0 with
  | nil => exact ⟨Nat.le_refl _, fun sc h => absurd h (List.not_mem_nil sc), Or.inl rfl⟩
  | cons x xs ih =>
    simp only [List.foldl_cons]
    obtain ⟨h1, h2, h3⟩ := ih (max m0 x.mLastRQ)
    refine ⟨Nat.le_trans (Nat.le_max_left _ _) h1, ?_, ?_⟩
    · intro sc hsc
      rcases List.mem_cons.mp hsc with rfl | hsc
      · exact Nat.le_trans (Nat.le_max_right _ _) h1
      · exact h2 sc hsc
    · rcases h3 with h | ⟨sc, hsc, h⟩
      · rcases Nat.le_total x.mLastRQ m0 with hle | hle
        · left
          rw [h]
          exact Nat.max_eq_left hle
        · right
          exact ⟨x, List.mem_cons_self x xs, by rw [h]; exact Nat.max_eq_right hle⟩
      · exact Or.inr ⟨sc, List.mem_cons_of_mem x hsc, h⟩

/-- The scene parts listed by `scenePasses` are those of the passes of the targets. -/
theorem mem_scenePasses (targets : List CompositorTargetDef) (sc : CompositorPassSceneDef) :
    sc ∈ scenePasses targets ↔
      ∃ t ∈ targets, ∃ p ∈ t.mCompositorPasses, p.scene = some sc := by
  induction targets with
  | nil => simp [scenePasses]
  | cons t ts ih =>
    rw [scenePasses, List.mem_append, ih, List.mem_filterMap]
    constructor
    · rintro (⟨p, hp, hs⟩ | ⟨u, hu, p, hp, hs⟩)
      · exact ⟨t, List.mem_cons_self t ts, p, hp, hs⟩
      · exact ⟨u, List.mem_cons_of_mem t hu, p, hp, hs⟩
    · rintro ⟨u, hu, p, hp, hs⟩
      rcases List.mem_cons.mp hu with rfl | hu
      · exact Or.inl ⟨p, hp, hs⟩
      · exact Or.inr ⟨u, hu, p, hp, hs⟩

/-- **C17.** After a successful `_validateAndFinish`, every scene pass has its
visibility mask OR-ed with `LAYER_SHADOW_CASTER`, an empty nested shadow node, the
policy `SHADOW_NODE_CASTER_PASS`, and `mUpdateLodLists` off when its LOD camera name
is empty and as before otherwise; its render-queue range is kept; and `mMinRq` and
`mMaxRq` are the minimum and the maximum of their prior values and the `mFirstRQ`
and `mLastRQ` of all scene passes. -/
theorem scene_passes_finished (H : Headers) (s : CompositorShadowNodeDef)
    (hok : (_validateAndFinish H s).thrown = none) :
    (∀ (i : Nat) (t : CompositorTargetDef) (k : Nat) (p : CompositorPassDef)
        (sc : CompositorPassSceneDef),
      s.mTargetPasses[i]? = some t → t.mCompositorPasses[k]? = some p →
      p.scene = some sc →
      ∃ (t' : CompositorTargetDef) (p' : CompositorPassDef) (sc' : CompositorPassSceneDef),
        (_validateAndFinish H s).node.mTargetPasses[i]? = some t' ∧
        t'.mCompositorPasses[k]? = some p' ∧ p'.scene = some sc' ∧
        sc'.mVisibilityMask = sc.mVisibilityMask ||| H.LAYER_SHADOW_CASTER ∧
        sc'.mShadowNode = (⟨0⟩ : IdString) ∧
        sc'.mShadowNodeRecalculation = ShadowNodeRecalculation.SHADOW_NODE_CASTER_PASS ∧
        (sc.mLodCameraName = (⟨0⟩ : IdString) → sc'.mUpdateLodLists = false) ∧
        (sc.mLodCameraName ≠ (⟨0⟩ : IdString) → sc'.mUpdateLodLists = sc.mUpdateLodLists) ∧
        sc'.mFirstRQ = sc.mFirstRQ ∧ sc'.mLastRQ = sc.mLastRQ ∧
        sc'.mLodCameraName = sc.mLodCameraName) ∧
    ((_validateAndFinish H s).node.mMinRq ≤ s.mMinRq ∧
      (∀ t ∈ s.mTargetPasses, ∀ p ∈ t.mCompositorPasses, ∀ sc : CompositorPassSceneDef,
        p.scene = some sc → (_validateAndFinish H s).node.mMinRq ≤ sc.mFirstRQ) ∧
      ((_validateAndFinish H s).node.mMinRq = s.mMinRq ∨
        ∃ t ∈ s.mTargetPasses, ∃ p ∈ t.mCompositorPasses, ∃ sc : CompositorPassSceneDef,
          p.scene = some sc ∧ (_validateAndFinish H s).node.mMinRq = sc.mFirstRQ)) ∧
    (s.mMaxRq ≤ (_validateAndFinish H s).node.mMaxRq ∧
      (∀ t ∈ s.mTargetPasses, ∀ p ∈ t.mCompositorPasses, ∀ sc : CompositorPassSceneDef,
        p.scene = some sc → sc.mLastRQ ≤ (_validateAndFinish H s).node.mMaxRq) ∧
      ((_validateAndFinish H s).node.mMaxRq = s.mMaxRq ∨
        ∃ t ∈ s.mTargetPasses, ∃ p ∈ t.mCompositorPasses, ∃ sc : CompositorPassSceneDef,
          p.scene = some sc ∧ (_validateAndFinish H s).node.mMaxRq = sc.mLastRQ)) := by
  obtain ⟨hta, _, _, _, _⟩ := validateAndFinish_ok H s hok
  obtain ⟨hmin, hmax, _⟩ := validateAndFinish_ok_node H s hok
  obtain ⟨_, _, _, tmin, tmax⟩ := targetLoop_ok H _ _ _ hta
  refine ⟨?_, ?_, ?_⟩
  · intro i t k p sc ht hp hsc
    obtain ⟨t', ht', _, _, _, hpass⟩ := finished_pass_get H s hok i t ht
    obtain ⟨m, a', hthrown, hget⟩ := hpass k p hp
    obtain ⟨_, hscene, _⟩ := passBody_ok H _ _ p m a' hthrown
    rw [hsc] at hscene
    refine ⟨t', _, finishScene H sc, ht', hget, hscene, rfl, rfl, rfl, ?_, ?_, rfl, rfl, rfl⟩
    · intro hlod
      simp [finishScene, hlod]
    · intro hlod
      simp [finishScene, hlod]
  · rw [hmin, tmin]
    obtain ⟨h1, h2, h3⟩ := foldl_min_spec (scenePasses s.mTargetPasses) (initialAccum s).mMinRq
    refine ⟨h1, ?_, ?_⟩
    · intro t ht p hp sc hsc
      exact h2 sc ((mem_scenePasses _ _).mpr ⟨t, ht, p, hp, hsc⟩)
    · rcases h3 with h | ⟨sc, hsc, h⟩
      · exact Or.inl h
      · obtain ⟨t, ht, p, hp, hs⟩ := (mem_scenePasses _ _).mp hsc
        exact Or.inr ⟨t, ht, p, hp, sc, hs, h⟩
  · rw [hmax, tmax]
    obtain ⟨h1, h2, h3⟩ := foldl_max_spec (scenePasses s.mTargetPasses) (initialAccum s).mMaxRq
    refine ⟨h1, ?_, ?_⟩
    · intro t ht p hp sc hsc
      exact h2 sc ((mem_scenePasses _ _).mpr ⟨t, ht, p, hp, hsc⟩)
    · rcases h3 with h | ⟨sc, hsc, h⟩
      · exact Or.inl h
      · obtain ⟨t, ht, p, hp, hs⟩ := (mem_scenePasses _ _).mp hsc
        exact Or.inr ⟨t, ht, p, hp, sc, hs, h⟩

/-- C17 on `atlasTargetNode`: the render-queue extent goes from 200..0 to 0..255. -/
theorem scene_passes_finished_witness :
    (_validateAndFinish sampleHeaders atlasTargetNode).node.mMinRq ≤ atlasTargetNode.mMinRq ∧
      (_validateAndFinish sampleHeaders atlasTargetNode).node.mMinRq = 0 ∧
      (_validateAndFinish sampleHeaders atlasTargetNode).node.mMaxRq = 255 :=
  ⟨(scene_passes_finished sampleHeaders atlasTargetNode (by decide)).2.1.1,
    by decide, by decide⟩

/-- The loop over definitions only raises `ERR_INVALIDPARAMS`, and only when it
holds a definition with a split and a technique other than PSSM. -/
theorem defLoop_thrown (done rest : List ShadowTextureDefinition) (log : List LogMessage)
    (code : ExceptionCodes) (h : (defLoop done rest log).thrown = some code) :
    code = ExceptionCodes.ERR_INVALIDPARAMS ∧
      ∃ d ∈ rest, d.split ≠ 0 ∧
        d.shadowMapTechnique ≠ ShadowMapTechniques.SHADOWMAP_PSSM := by
  induction rest generalizing done log with
  | nil => simp [defLoop] at h
  | cons e es ih =>
    unfold defLoop at h
    by_cases he : e.split ≠ 0 ∧ e.shadowMapTechnique ≠ ShadowMapTechniques.SHADOWMAP_PSSM
    · rw [if_pos he] at h
      simp only [Option.some.injEq] at h
      exact ⟨h.symm, e, List.mem_cons_self e es, he⟩
    · rw [if_neg he] at h
      obtain ⟨hc, d, hd, hbad⟩ := ih _ _ h
      exact ⟨hc, d, List.mem_cons_of_mem e hd, hbad⟩

/-- The definitions and the light counter after `_validateAndFinish`, whatever the
outcome. -/
theorem validateAndFinish_definitions (H : Headers) (s : CompositorShadowNodeDef) :
    (_validateAndFinish H s).node.mNumLights = s.mNumLights ∧
    ((targetLoop H s.mShadowMapTexDefinitions s.mTargetPasses (initialAccum s)).thrown ≠ none →
      (_validateAndFinish H s).node.mShadowMapTexDefinitions = s.mShadowMapTexDefinitions) ∧
    ((targetLoop H s.mShadowMapTexDefinitions s.mTargetPasses (initialAccum s)).thrown = none →
      (_validateAndFinish H s).node.mShadowMapTexDefinitions =
        (defLoop [] s.mShadowMapTexDefinitions
          (targetLoop H s.mShadowMapTexDefinitions s.mTargetPasses
            (initialAccum s)).acc.log).defs ∧
      (_validateAndFinish H s).thrown =
        (defLoop [] s.mShadowMapTexDefinitions
          (targetLoop H s.mShadowMapTexDefinitions s.mTargetPasses
            (initialAccum s)).acc.log).thrown) := by
  unfold _validateAndFinish
  simp only
  cases hta : (targetLoop H s.mShadowMapTexDefinitions s.mTargetPasses
      (initialAccum s)).thrown with
  | some code => exact ⟨rfl, fun _ => rfl, fun h => by cases h⟩
  | none => exact ⟨rfl, fun h => absurd rfl h, fun _ => ⟨rfl, rfl⟩⟩

/-- **C15 (as stated, refuted).** On `halfFinishedNode`, `_validateAndFinish` raises
`ERR_INVALIDPARAMS` at the third definition, and the node it leaves behind differs
from the node before the call in `numSplits`, in the link of the second definition,
in the target mask, in the pass (overlays, viewport, scissor, scene members), in
`mLightTypesMask` and in the render-queue extent. -/
theorem failure_keeps_writes :
    (_validateAndFinish sampleHeaders halfFinishedNode).thrown =
      some ExceptionCodes.ERR_INVALIDPARAMS ∧
    halfFinishedNode.mShadowMapTexDefinitions.map
      (fun d => (d.numSplits, d.sharesSetupWith)) =
        [(9, 2 ^ 64 - 1), (3, 2 ^ 64 - 1), (3, 2 ^ 64 - 1)] ∧
    (_validateAndFinish sampleHeaders halfFinishedNode).node.mShadowMapTexDefinitions.map
      (fun d => (d.numSplits, d.sharesSetupWith)) =
        [(5, 2 ^ 64 - 1), (5, 0), (3, 2 ^ 64 - 1)] ∧
    halfFinishedNode.mTargetPasses.map (fun t => t.mShadowMapSupportedLightTypes) = [0] ∧
    (_validateAndFinish sampleHeaders halfFinishedNode).node.mTargetPasses.map
      (fun t => t.mShadowMapSupportedLightTypes) = [1] ∧
    halfFinishedNode.mTargetPasses.map (fun t => t.mCompositorPasses.map
      (fun p => (p.mIncludeOverlays, p.mVpLeft, p.mVpTop, p.mVpWidth, p.mVpHeight,
        p.scene.map (fun sc => (sc.mVisibilityMask, sc.mUpdateLodLists))))) =
        [[(true, 0, 0, 1, 1, some (1, true))]] ∧
    (_validateAndFinish sampleHeaders halfFinishedNode).node.mTargetPasses.map
      (fun t => t.mCompositorPasses.map
        (fun p => (p.mIncludeOverlays, p.mVpLeft, p.mVpTop, p.mVpWidth, p.mVpHeight,
          p.scene.map (fun sc => (sc.mVisibilityMask, sc.mUpdateLodLists))))) =
        [[(false, 2, 3, 4, 5, some (2 ^ 30 + 1, false))]] ∧
    halfFinishedNode.mLightTypesMask = [] ∧
    (_validateAndFinish sampleHeaders halfFinishedNode).node.mLightTypesMask = [1, 0] ∧
    (halfFinishedNode.mMinRq, halfFinishedNode.mMaxRq) = (200, 0) ∧
    ((_validateAndFinish sampleHeaders halfFinishedNode).node.mMinRq,
      (_validateAndFinish sampleHeaders halfFinishedNode).node.mMaxRq) = (0, 255) := by
  refine ⟨?_, ?_, ?_, ?_, ?_, ?_, ?_, ?_, ?_, ?_, ?_⟩ <;> first | decide | rfl

/-- **C15 (amended).** When `_validateAndFinish` raises, the code is
`ERR_INVALIDPARAMS` and the node keeps what was written before the exception. Equal
to their values before the call are `mNumLights` and, definition by definition, every
member other than `numSplits` and the link; the definitions are unchanged altogether
when none of them has a split with a technique other than PSSM, that is when the
exception comes from the loop over targets. -/
theorem failure_leaves_definition_members (H : Headers) (s : CompositorShadowNodeDef)
    (code : ExceptionCodes) (hfail : (_validateAndFinish H s).thrown = some code) :
    code = ExceptionCodes.ERR_INVALIDPARAMS ∧
    (_validateAndFinish H s).node.mNumLights = s.mNumLights ∧
    List.Forall₂ AgreeOutsideLinks (_validateAndFinish H s).node.mShadowMapTexDefinitions
      s.mShadowMapTexDefinitions ∧
    ((∀ d ∈ s.mShadowMapTexDefinitions, ¬ (d.split ≠ 0 ∧
        d.shadowMapTechnique ≠ ShadowMapTechniques.SHADOWMAP_PSSM)) →
      (_validateAndFinish H s).node.mShadowMapTexDefinitions =
        s.mShadowMapTexDefinitions) := by
  obtain ⟨hnum, hA, hB⟩ := validateAndFinish_definitions H s
  cases hta : (targetLoop H s.mShadowMapTexDefinitions s.mTargetPasses
      (initialAccum s)).thrown with
  | some c =>
    have hdefs := hA (by rw [hta]; exact Option.some_ne_none c)
    have hcode : code = ExceptionCodes.ERR_INVALIDPARAMS := by
      rw [validateAndFinish_thrown_of_targets H s c hta] at hfail
      rw [← Option.some.inj hfail]
      exact targetLoop_thrown H _ _ _ c hta
    refine ⟨hcode, hnum, ?_, fun _ => hdefs⟩
    rw [hdefs]
    exact List.forall₂_same.mpr (fun x _ => agreeOutsideLinks_refl x)
  | none =>
    obtain ⟨hdefs, hthrown⟩ := hB hta
    rw [hthrown] at hfail
    obtain ⟨hcode, d, hd, hbad⟩ := defLoop_thrown [] _ _ code hfail
    refine ⟨hcode, hnum, ?_, fun hnone => absurd hbad (hnone d hd)⟩
    rw [hdefs]
    exact (defLoop_agree [] _ _).1

/-- Amended C15 on `halfFinishedNode`. -/
theorem failure_leaves_definition_members_witness :
    (_validateAndFinish sampleHeaders halfFinishedNode).thrown =
        some ExceptionCodes.ERR_INVALIDPARAMS ∧
      (_validateAndFinish sampleHeaders halfFinishedNode).node.mNumLights =
        halfFinishedNode.mNumLights ∧
      List.Forall₂ AgreeOutsideLinks
        (_validateAndFinish sampleHeaders halfFinishedNode).node.mShadowMapTexDefinitions
        halfFinishedNode.mShadowMapTexDefinitions :=
  ⟨by decide,
    (failure_leaves_definition_members sampleHeaders halfFinishedNode
      ExceptionCodes.ERR_INVALIDPARAMS (by decide)).2.1,
    (failure_leaves_definition_members sampleHeaders halfFinishedNode
      ExceptionCodes.ERR_INVALIDPARAMS (by decide)).2.2.1⟩

/-- **C16 (as stated, refuted).** On `mismatchNode` finalisation succeeds. The third
definition (light 1, split 1) is preceded by the second (light 1, split 0), yet it is
linked to position 0, a definition of light 0 with the same technique. -/
theorem link_follows_declaration_order :
    (_validateAndFinish sampleHeaders mismatchNode).thrown = none ∧
      (_validateAndFinish sampleHeaders mismatchNode).node.mShadowMapTexDefinitions.map
          (fun d => (d.light, d.split, d.sharesSetupWith)) =
        [(0, 0, 2 ^ 64 - 1), (1, 0, 0), (1, 1, 0)] := by
  decide

/-- **C16 (amended).** After a successful `_validateAndFinish`, a definition `A` that
has an earlier definition with the same light and another split is linked to the
first earlier definition that has either the same light and another split or another
light and the same technique; neither rule has priority. The linked definition has
the light of `A` when no definition with another light and the technique of `A` comes
before that same-light predecessor. -/
theorem link_to_first_match (H : Headers) (s : CompositorShadowNodeDef)
    (hok : (_validateAndFinish H s).thrown = none) (i : Nat) (a : ShadowTextureDefinition)
    (ha : s.mShadowMapTexDefinitions[i]? = some a) (j : Nat) (b : ShadowTextureDefinition)
    (hj : j < i) (hb : s.mShadowMapTexDefinitions[j]? = some b)
    (hl : b.light = a.light) (hs : b.split ≠ a.split) :
    ∃ (a' : ShadowTextureDefinition) (m : Nat) (c : ShadowTextureDefinition),
      (_validateAndFinish H s).node.mShadowMapTexDefinitions[i]? = some a' ∧
      a'.sharesSetupWith = m ∧ m ≤ j ∧ s.mShadowMapTexDefinitions[m]? = some c ∧
      SharesSetup c a ∧
      (∀ (k : Nat) (e : ShadowTextureDefinition), k < m →
        s.mShadowMapTexDefinitions[k]? = some e → ¬ SharesSetup e a) ∧
      ((∀ (k : Nat) (e : ShadowTextureDefinition), k < j →
          s.mShadowMapTexDefinitions[k]? = some e →
          ¬ (e.light ≠ a.light ∧ e.shadowMapTechnique = a.shadowMapTechnique)) →
        c.light = a.light) := by
  classical
  have hex : ∃ m, ∃ c, s.mShadowMapTexDefinitions[m]? = some c ∧ SharesSetup c a :=
    ⟨j, b, hb, Or.inl ⟨hl, hs⟩⟩
  obtain ⟨c, hc, hshare⟩ := Nat.find_spec hex
  have hmin : ∀ (k : Nat) (e : ShadowTextureDefinition), k < Nat.find hex →
      s.mShadowMapTexDefinitions[k]? = some e → ¬ SharesSetup e a := by
    intro k e hk he hse
    exact Nat.find_min hex hk ⟨e, he, hse⟩
  have hmj : Nat.find hex ≤ j := Nat.find_min' hex ⟨b, hb, Or.inl ⟨hl, hs⟩⟩
  obtain ⟨a', ha', hfirst, _⟩ := validateAndFinish_first_predecessor H s hok i a ha
  refine ⟨a', Nat.find hex, c, ha',
    hfirst (Nat.find hex) c (Nat.lt_of_le_of_lt hmj hj) hc hshare hmin, hmj, hc, hshare,
    hmin, ?_⟩
  intro hnone
  rcases hshare with ⟨h1, _⟩ | h2
  · exact h1
  · rcases Nat.lt_or_eq_of_le hmj with hlt | heq
    · exact absurd h2 (hnone _ c hlt hc)
    · rw [heq, hb] at hc
      cases hc
      exact hl

/-- Amended C16 on `atlasNode`: light 0 split 1 is linked to light 0 split 0. -/
theorem link_to_first_match_witness :
    ∃ (a' : ShadowTextureDefinition) (m : Nat),
      (_validateAndFinish sampleHeaders atlasNode).node.mShadowMapTexDefinitions[1]? =
        some a' ∧ a'.sharesSetupWith = m ∧ m ≤ 0 := by
  obtain ⟨a', m, _, h1, h2, h3, _⟩ := link_to_first_match sampleHeaders atlasNode
    (by decide) 1
    (ShadowTextureDefinition.construct sampleHeaders ShadowMapTechniques.SHADOWMAP_PSSM
      "atlas".toList 0 ⟨1, 0⟩ ⟨1, 1⟩ 0 0 1)
    rfl 0
    (ShadowTextureDefinition.construct sampleHeaders ShadowMapTechniques.SHADOWMAP_PSSM
      "atlas".toList 0 ⟨0, 0⟩ ⟨1, 1⟩ 0 0 0)
    (by decide) rfl rfl (by decide)
  exact ⟨a', m, h1, h2, h3⟩

/-- **C20 (failing input).** The registry `sparseLightRegistry` is reached from the
empty registry by one registration (light 1, split 0), so `mNumLights` is 1 and
`mLightTypesMask` is resized to one entry. The pass of `sparseLightNode` refers to
that definition, and `_validateAndFinish` writes `mLightTypesMask[1]`, outside the
vector. -/
theorem lightTypesMask_write_out_of_range :
    Reachable sampleHeaders sparseLightRegistry ∧
      sparseLightNode.mShadowMapTexDefinitions =
        sparseLightRegistry.mShadowMapTexDefinitions ∧
      sparseLightNode.mNumLights = 1 ∧
      sparseLightNode.mShadowMapTexDefinitions.map (fun d => d.light) = [1] ∧
      (_validateAndFinish sampleHeaders sparseLightNode).outOfRange = true ∧
      (_validateAndFinish sampleHeaders sparseLightNode).node.mLightTypesMask.length = 1 :=
  ⟨Reachable.add _ _ _ _ _ _ _ _ (Reachable.empty _ rfl rfl), rfl, by decide, by decide,
    by decide, by decide⟩

end Ogre
